import Mathlib

/-!
# tinmoi: feed crawler, report model, manual overlay

A shallow embedding of `src/tinmoi.go`.  The older `src/sao luu/tinmoi.go` has
the same `trimSummary` and the same worker, without the progress bookkeeping.

Conventions of the embedding

* A Go `string` is a sequence of bytes: `GoString := List UInt8`.  `len` is
  `List.length`, `s[:n]` is `List.take n`, `+` is `++`.  String literals of
  the source are written `lit "..."`, their UTF-8 bytes.
* A Go slice is a `List`; `append(xs, x)` is `xs ++ [x]`.
* `time.Duration` is an `Int` of nanoseconds wrapped to 64 bits.
* The goroutines of `crawlRSSFeeds` do all their bookkeeping between
  `mu.Lock()` and the deferred `mu.Unlock()`, so a run is the sequence of
  these critical sections in the order in which the workers take the lock.
  The order, the result of every `fp.ParseURL` call and the readings of
  `time.Since(startTime)` are inputs of the model.
-/

namespace Tinmoi

/-! ## Strings -/

/-- A Go string: its bytes. -/
abbrev GoString := List UInt8

/-- UTF-8 bytes of one character of a source literal. -/
def utf8Bytes (c : Char) : List UInt8 :=
  let n := c.toNat
  if n < 0x80 then [UInt8.ofNat n]
  else if n < 0x800 then [UInt8.ofNat (0xC0 + n / 64), UInt8.ofNat (0x80 + n % 64)]
  else if n < 0x10000 then
    [UInt8.ofNat (0xE0 + n / 4096), UInt8.ofNat (0x80 + n / 64 % 64), UInt8.ofNat (0x80 + n % 64)]
  else
    [UInt8.ofNat (0xF0 + n / 262144), UInt8.ofNat (0x80 + n / 4096 % 64),
     UInt8.ofNat (0x80 + n / 64 % 64), UInt8.ofNat (0x80 + n % 64)]

/-- A string literal of the Go source, as the bytes the compiler stores. -/
def lit (s : String) : GoString := s.data.flatMap utf8Bytes

/-- Go: `func trimSummary(text string, length int) string`. -/
def trimSummary (text : GoString) (length : Nat) : GoString :=
  if text.length > length then text.take length ++ lit "..." else text

/-! ## Durations -/

/-- Go `time.Duration`: an int64 count of nanoseconds. -/
abbrev Duration := Int

/-- Two's-complement wrap of an integer to 64 bits. -/
def wrapInt64 (x : Int) : Int := (x + 2 ^ 63) % 2 ^ 64 - 2 ^ 63

/-- Go `a / b` on int64: truncated division; a zero divisor is a run-time panic. -/
def durDiv (a b : Duration) : Option Duration :=
  if b = 0 then none else some (wrapInt64 (Int.tdiv a b))

/-- Go `a * b` on int64. -/
def durMul (a b : Duration) : Duration := wrapInt64 (a * b)

/-! ## Data model -/

/-- Go: `type Article struct`. -/
structure Article where
  Source : GoString
  Title : GoString
  URL : GoString
  Summary : GoString
  deriving DecidableEq, Repr

/-- The fields of `gofeed.Item` the crawler reads. -/
structure Item where
  Title : GoString
  Link : GoString
  Description : GoString
  Content : GoString
  deriving DecidableEq, Repr

/-- What `fp.ParseURL(url)` gives a worker: `none` when `err != nil`, else `feed.Items`. -/
abbrev FetchResult := Option (List Item)

/-- One call `printProgressBar(current, total, eta)`. -/
structure ProgressCall where
  current : Nat
  total : Nat
  eta : Duration
  deriving DecidableEq, Repr

/-- The variables shared by the workers of one `crawlRSSFeeds` call, with the
calls made to the progress sink so far. -/
structure CrawlState where
  successSources : List GoString
  failSources : List GoString
  articles : List Article
  currentSource : Nat
  progress : List ProgressCall
  deriving DecidableEq, Repr

/-- The shared variables when the workers are launched. -/
def CrawlState.init : CrawlState := ⟨[], [], [], 0, []⟩

/-! ## The crawl -/

/-- The article a worker appends for one feed entry (lines 116-125). -/
def mkArticle (source : GoString) (item : Item) : Article :=
  let summary := if item.Description = lit "" then item.Content else item.Description
  { Source := source, Title := item.Title, URL := item.Link, Summary := summary }

/-- The loop `for _, item := range feed.Items` of a worker, from the value
`count` has on entry. -/
def appendItems (source : GoString) : List Item → Nat → List Article → List Article
  | [], _, articles => articles
  | item :: rest, count, articles =>
    if count ≥ 5 then articles
    else appendItems source rest (count + 1) (articles ++ [mkArticle source item])

/-- The critical section of one worker: everything between `mu.Lock()` and the
deferred `mu.Unlock()`.  `result` is what `fp.ParseURL(url)` returned to this
worker and `since k` is what `time.Since(startTime)` reads for the `k`-th
worker to take the lock.  `none` is the panic of a division by zero. -/
def worker (totalSources : Nat) (since : Nat → Duration) (st : CrawlState)
    (source : GoString) (result : FetchResult) : Option CrawlState := do
  let currentSource := st.currentSource + 1
  let elapsed := since currentSource
  let avgPerSource ← durDiv elapsed (currentSource : Int)
  let remaining := durMul avgPerSource ((totalSources : Int) - (currentSource : Int))
  let progress := st.progress ++ [⟨currentSource, totalSources, remaining⟩]
  match result with
  | none =>
    pure { st with currentSource := currentSource, progress := progress,
                   failSources := st.failSources ++ [source] }
  | some items =>
    pure { st with currentSource := currentSource, progress := progress,
                   successSources := st.successSources ++ [source],
                   articles := appendItems source items 0 st.articles }

/-- The workers of `order` taking the lock one after the other, from `st`. -/
def runWorkers (totalSources : Nat) (fetch : GoString → GoString → FetchResult)
    (since : Nat → Duration) : CrawlState → List (GoString × GoString) → Option CrawlState
  | st, [] => some st
  | st, (source, url) :: rest =>
    match worker totalSources since st source (fetch source url) with
    | none => none
    | some st' => runWorkers totalSources fetch since st' rest

/-- Go: `func crawlRSSFeeds()`.  `rssSources` is the registry (the entries of
the map), `order` the order in which the workers complete, `fetch source url`
the result of the `ParseURL` call of the worker of `(source, url)`. -/
def crawlRSSFeeds (rssSources order : List (GoString × GoString))
    (fetch : GoString → GoString → FetchResult) (since : Nat → Duration) : Option CrawlState :=
  runWorkers rssSources.length fetch since CrawlState.init order

/-- What a source adds to `articles`: nothing when its fetch failed, else the
articles of its first five entries. -/
def contribution (fetch : GoString → GoString → FetchResult) (e : GoString × GoString) :
    List Article :=
  match fetch e.1 e.2 with
  | none => []
  | some items => (items.take 5).map (mkArticle e.1)

/-- Whether the fetch of a registry entry succeeded. -/
def succeeded (fetch : GoString → GoString → FetchResult) (e : GoString × GoString) : Bool :=
  (fetch e.1 e.2).isSome

/-- The progress call of the `k`-th completion of a crawl over `total` sources. -/
def progressAt (total : Nat) (since : Nat → Duration) (k : Nat) : ProgressCall :=
  ⟨k, total, durMul (wrapInt64 (Int.tdiv (since k) (k : Int))) ((total : Int) - (k : Int))⟩

/-! ## Reports -/

/-- Go `time.Time`, as the reading it shows: `wall` is the local wall clock in
nanoseconds since 0001-01-01T00:00:00 and `offset` the zone offset in seconds
east of UTC.  The monotonic clock reading of a `time.Now()` value has no part
in `IsZero` nor in the JSON form and is left out. -/
structure Time where
  wall : Int
  offset : Int
  deriving DecidableEq, Repr

/-- The instant of a time: nanoseconds since the zero time in UTC. -/
def Time.instant (t : Time) : Int := t.wall - t.offset * 1000000000

/-- Go: `t.IsZero()`, the instant January 1, year 1, 00:00:00 UTC. -/
def Time.IsZero (t : Time) : Bool := decide (t.instant = 0)

/-- The zero value of `time.Time`. -/
def Time.zero : Time := ⟨0, 0⟩

/-- Go: `type Report struct`. -/
structure Report where
  Timestamp : Time
  SuccessSources : List GoString
  FailSources : List GoString
  Articles : List Article
  deriving DecidableEq, Repr

/-- Go: `type ManualArticle struct`, which embeds `Article`. -/
structure ManualArticle extends Article where
  ManualSummary : GoString
  ManualOpinion : GoString
  deriving DecidableEq, Repr

/-- Go: `type ManualReport struct`. -/
structure ManualReport where
  Timestamp : Time
  SuccessSources : List GoString
  FailSources : List GoString
  Articles : List ManualArticle
  deriving DecidableEq, Repr

/-- The zero value of `Report`, the value of `lastReport` at start-up. -/
def Report.zero : Report := ⟨Time.zero, [], [], []⟩

/-- The zero value of `ManualArticle`, an element of `make([]ManualArticle, n)`. -/
def ManualArticle.zero : ManualArticle :=
  { Source := lit "", Title := lit "", URL := lit "", Summary := lit "",
    ManualSummary := lit "", ManualOpinion := lit "" }

/-- The zero value of `ManualReport`. -/
def ManualReport.zero : ManualReport := ⟨Time.zero, [], [], []⟩

/-! ## Manual overlay -/

/-- The loop `for i, art := range lastReport.Articles` of `manualUpdateReport`
(lines 211-213), from index `i`. -/
def fillArticles : List Article → Nat → List ManualArticle → List ManualArticle
  | [], _, articles => articles
  | art :: rest, i, articles =>
    fillArticles rest (i + 1)
      (articles.set i { toArticle := art, ManualSummary := lit "", ManualOpinion := lit "" })

/-- The construction of `manualReport` in `manualUpdateReport` (lines 204-213). -/
def beginOverlay (lastReport : Report) : ManualReport :=
  let manualReport : ManualReport :=
    { Timestamp := lastReport.Timestamp
      SuccessSources := lastReport.SuccessSources
      FailSources := lastReport.FailSources
      Articles := List.replicate lastReport.Articles.length ManualArticle.zero }
  { manualReport with Articles := fillArticles lastReport.Articles 0 manualReport.Articles }

/-- How one pass through the edit loop, or the view loop, ends. -/
inductive LoopOutcome where
  | exit
  | invalid
  | done (idx : Int)
  deriving DecidableEq, Repr

/-- The assignments through `art := &manualReport.Articles[idx]` (lines 235-243).
The index is in range after the check of line 229, so the first case does not
occur in `editStep`. -/
def setManual (manualReport : ManualReport) (idx : Nat) (summary opinion : GoString) :
    ManualReport :=
  match manualReport.Articles[idx]? with
  | none => manualReport
  | some art =>
    { manualReport with
      Articles := manualReport.Articles.set idx
        { art with ManualSummary := summary, ManualOpinion := opinion } }

/-- One pass through the edit loop of `manualUpdateReport` (lines 225-245).
`input` is the selection line after `strings.TrimSpace`, `summary` the summary
line after `strings.TrimSpace` and `opinion` what `readMultilineInput` returns;
the last two are read only when the selection is accepted.  `atoi` is
`strconv.Atoi`, `none` standing for `err != nil`. -/
def editStep (atoi : GoString → Option Int) (manualReport : ManualReport)
    (input summary opinion : GoString) : ManualReport × LoopOutcome :=
  if input = lit "0" then (manualReport, LoopOutcome.exit)
  else
    match atoi input with
    | none => (manualReport, LoopOutcome.invalid)
    | some idx =>
      if idx < 1 ∨ idx > (manualReport.Articles.length : Int) then
        (manualReport, LoopOutcome.invalid)
      else
        let idx := idx - 1
        (setManual manualReport idx.toNat summary opinion, LoopOutcome.done (idx + 1))

/-- What the operator types for one pass through the edit loop. -/
structure EditInput where
  input : GoString
  summary : GoString
  opinion : GoString
  deriving DecidableEq, Repr

/-- What the program reports to the operator.  Prompts, the menu and the
listings of titles are left out; `results` is one call of `printResults` and
`detail` the lines of one detail block. -/
inductive Output where
  | crawlStarted
  | progress (call : ProgressCall)
  | results (report : Report)
  | noReportYet
  | invalidIndex
  | updated (idx : Int)
  | saved
  | saveFailed
  | loadFailed
  | detail (lines : List GoString)
  | goodbye
  | invalidChoice
  deriving DecidableEq, Repr

/-- The edit loop of `manualUpdateReport` (lines 217-246): it ends only when
`0` is read, so `none` is a loop that has read all the inputs and still waits
for a line. -/
def editLoop (atoi : GoString → Option Int) :
    ManualReport → List EditInput → Option (ManualReport × List Output)
  | _, [] => none
  | manualReport, e :: rest =>
    match editStep atoi manualReport e.input e.summary e.opinion with
    | (m, LoopOutcome.exit) => some (m, [])
    | (m, LoopOutcome.invalid) =>
      (editLoop atoi m rest).map (fun r => (r.1, Output.invalidIndex :: r.2))
    | (m, LoopOutcome.done idx) =>
      (editLoop atoi m rest).map (fun r => (r.1, Output.updated idx :: r.2))

/-! ## Detail rendering -/

/-- The colour functions `color.New(...).SprintFunc()` of `github.com/fatih/color`. -/
structure Colors where
  blue : GoString → GoString
  purple : GoString → GoString
  black : GoString → GoString

/-- The five `fmt.Printf` calls of the detail block of `extractManualReport`
(lines 289-303), each as the text it prints. -/
def renderDetail (c : Colors) (art : ManualArticle) : List GoString :=
  [ lit "\nNguồn tin: " ++ c.blue art.Source ++ lit "\n",
    lit "Tiêu đề: " ++ c.black art.Title ++ lit "\n",
    lit "URL: " ++ c.purple art.URL ++ lit "\n",
    if art.ManualSummary ≠ lit "" then
      lit "Tóm tắt ngắn gọn (thủ công): " ++ c.black (trimSummary art.ManualSummary 300) ++ lit "\n"
    else
      lit "Tóm tắt ngắn gọn: " ++ c.black (trimSummary art.Summary 300) ++ lit "\n",
    if art.ManualOpinion ≠ lit "" then
      lit "Nhận định (thủ công):\n" ++ art.ManualOpinion ++ lit "\n\n"
    else
      lit "Nhận định: Chưa có nhận định thủ công.\n\n" ]

/-- One pass through the view loop of `extractManualReport` (lines 274-303):
the outcome and the lines printed by the detail block.  The index is in range
after the check of line 278, so the lookup does not fail. -/
def viewStep (atoi : GoString → Option Int) (c : Colors) (manualReport : ManualReport)
    (input : GoString) : LoopOutcome × List GoString :=
  if input = lit "0" then (LoopOutcome.exit, [])
  else
    match atoi input with
    | none => (LoopOutcome.invalid, [])
    | some idx =>
      if idx < 1 ∨ idx > (manualReport.Articles.length : Int) then (LoopOutcome.invalid, [])
      else
        let idx := idx - 1
        match manualReport.Articles[idx.toNat]? with
        | none => (LoopOutcome.invalid, [])
        | some art => (LoopOutcome.done idx, renderDetail c art)

/-- The view loop of `extractManualReport` (lines 266-304); `none` as for the
edit loop. -/
def viewLoop (atoi : GoString → Option Int) (c : Colors) (manualReport : ManualReport) :
    List GoString → Option (List Output)
  | [] => none
  | input :: rest =>
    match viewStep atoi c manualReport input with
    | (LoopOutcome.exit, _) => some []
    | (LoopOutcome.invalid, _) =>
      (viewLoop atoi c manualReport rest).map (fun r => Output.invalidIndex :: r)
    | (LoopOutcome.done _, lines) =>
      (viewLoop atoi c manualReport rest).map (fun r => Output.detail lines :: r)

/-! ## JSON documents

`saveReportToFile` and `loadReportFromFile` hand the report to `encoding/json`
of the Go standard library.  The library is modelled here at the level of the
JSON document: which members the struct tags of `Article`, `Report`,
`ManualArticle` and `ManualReport` produce, and how a document is read back
into a value.  The text of a document (indentation, escapes, the digits of a
time) is not modelled: a file holds a document or something that is not one. -/

/-- A JSON document.  A string that is the RFC 3339 text of a time is kept as
`time wall zone`, the wall clock (nanoseconds since 0001-01-01T00:00:00) and
the zone offset in minutes that the text shows; `str` holds every other
string, by its bytes. -/
inductive Json where
  | null
  | bool (b : Bool)
  | number (text : GoString)
  | str (s : GoString)
  | time (wall : Int) (zone : Int)
  | arr (items : List Json)
  | obj (members : List (GoString × Json))

/-- Whether `b` is a UTF-8 continuation byte. -/
def isCont (b : UInt8) : Bool := decide (0x80 ≤ b.toNat ∧ b.toNat ≤ 0xBF)

/-- Number of bytes of the UTF-8 encoding at the head of `s`, `0` when the
head is not a valid encoding (Go: `utf8.DecodeRuneInString` gives `RuneError`
of width 1). -/
def runeLen (s : List UInt8) : Nat :=
  match s with
  | [] => 0
  | b0 :: rest =>
    let n0 := b0.toNat
    if n0 < 0x80 then 1
    else if n0 < 0xC2 then 0
    else if n0 < 0xE0 then
      match rest with
      | b1 :: _ => if isCont b1 then 2 else 0
      | _ => 0
    else if n0 < 0xF0 then
      match rest with
      | b1 :: b2 :: _ =>
        let lo := if n0 = 0xE0 then 0xA0 else 0x80
        let hi := if n0 = 0xED then 0x9F else 0xBF
        if lo ≤ b1.toNat ∧ b1.toNat ≤ hi ∧ isCont b2 = true then 3 else 0
      | _ => 0
    else if n0 < 0xF5 then
      match rest with
      | b1 :: b2 :: b3 :: _ =>
        let lo := if n0 = 0xF0 then 0x90 else 0x80
        let hi := if n0 = 0xF4 then 0x8F else 0xBF
        if lo ≤ b1.toNat ∧ b1.toNat ≤ hi ∧ isCont b2 = true ∧ isCont b3 = true then 4 else 0
      | _ => 0
    else 0

/-- The bytes a Go string has after it was written as a JSON string and read
back, at most `fuel` runes of it: `encoding/json` writes a string "coerced to
valid UTF-8, replacing invalid bytes with the Unicode replacement rune", whose
encoding is `EF BF BD`. -/
def coerceRunes : Nat → List UInt8 → List UInt8
  | 0, _ => []
  | _ + 1, [] => []
  | fuel + 1, b :: rest =>
    match runeLen (b :: rest) with
    | 0 => [0xEF, 0xBF, 0xBD] ++ coerceRunes fuel rest
    | n => (b :: rest).take n ++ coerceRunes fuel ((b :: rest).drop n)

/-- The string `s` coerced to valid UTF-8. -/
def toValidUTF8 (s : GoString) : GoString := coerceRunes s.length s

/-- The well-formed UTF-8 byte sequences of one code point (Unicode standard,
table 3-7): one to four bytes, without overlong forms, surrogates and code
points above U+10FFFF. -/
def isRune : List UInt8 → Bool
  | [a] => decide (a.toNat < 0x80)
  | [a, b] => decide (0xC2 ≤ a.toNat ∧ a.toNat ≤ 0xDF) && isCont b
  | [a, b, c] =>
    decide ((a.toNat = 0xE0 ∧ 0xA0 ≤ b.toNat ∧ b.toNat ≤ 0xBF) ∨
      (0xE1 ≤ a.toNat ∧ a.toNat ≤ 0xEC ∧ 0x80 ≤ b.toNat ∧ b.toNat ≤ 0xBF) ∨
      (a.toNat = 0xED ∧ 0x80 ≤ b.toNat ∧ b.toNat ≤ 0x9F) ∨
      (0xEE ≤ a.toNat ∧ a.toNat ≤ 0xEF ∧ 0x80 ≤ b.toNat ∧ b.toNat ≤ 0xBF)) && isCont c
  | [a, b, c, d] =>
    decide ((a.toNat = 0xF0 ∧ 0x90 ≤ b.toNat ∧ b.toNat ≤ 0xBF) ∨
      (0xF1 ≤ a.toNat ∧ a.toNat ≤ 0xF3 ∧ 0x80 ≤ b.toNat ∧ b.toNat ≤ 0xBF) ∨
      (a.toNat = 0xF4 ∧ 0x80 ≤ b.toNat ∧ b.toNat ≤ 0x8F)) && isCont c && isCont d
  | _ => false

/-- Whether a string is a sequence of well-formed UTF-8 byte sequences. -/
def validUTF8 : List UInt8 → Bool
  | [] => true
  | a :: rest =>
    if isRune [a] then validUTF8 rest
    else
      match rest with
      | [] => false
      | b :: rest =>
        if isRune [a, b] then validUTF8 rest
        else
          match rest with
          | [] => false
          | c :: rest =>
            if isRune [a, b, c] then validUTF8 rest
            else
              match rest with
              | [] => false
              | d :: rest => if isRune [a, b, c, d] then validUTF8 rest else false

/-- A string that is valid UTF-8. -/
def ValidUTF8 (s : GoString) : Prop := validUTF8 s = true

instance (s : GoString) : Decidable (ValidUTF8 s) := by
  unfold ValidUTF8; infer_instance

/-- Whether the local date of the wall clock `wall` has a year in 0..9999:
year 0 starts 366 days before 0001-01-01 and year 10000 starts 3652059 days
after it. -/
def yearInRange (wall : Int) : Bool :=
  decide (-(366 * 86400 * 1000000000) ≤ wall ∧ wall < 3652059 * 86400 * 1000000000)

/-- `Time.MarshalJSON`: the RFC 3339 text of the wall clock with the zone offset
in whole minutes (Go: `zone := offset / 60`, the seconds of the offset are not
written); an error for a year outside 0..9999 or a zone hour outside 0..23. -/
def marshalTime (t : Time) : Option Json :=
  let zone := Int.tdiv t.offset 60
  if yearInRange t.wall = true ∧ zone.natAbs / 60 < 24 then some (Json.time t.wall zone)
  else none

/-- The time that the RFC 3339 text of `t` denotes: the wall clock of `t` at
the zone offset cut to whole minutes. -/
def Time.reloaded (t : Time) : Time := ⟨t.wall, Int.tdiv t.offset 60 * 60⟩

/-- The JSON string written for a Go string. -/
def jsonString (s : GoString) : Json := Json.str (toValidUTF8 s)

/-- The members written for the fields of `Article`, by their tags. -/
def Article.members (a : Article) : List (GoString × Json) :=
  [ (lit "source", jsonString a.Source), (lit "title", jsonString a.Title),
    (lit "url", jsonString a.URL), (lit "summary", jsonString a.Summary) ]

/-- The member written for a string field tagged `omitempty`. -/
def omitEmpty (key : GoString) (s : GoString) : List (GoString × Json) :=
  if s = lit "" then [] else [(key, jsonString s)]

/-- The members written for a `ManualArticle`: the promoted fields of the
embedded `Article`, then the two `omitempty` fields. -/
def ManualArticle.members (a : ManualArticle) : List (GoString × Json) :=
  a.toArticle.members ++ omitEmpty (lit "manual_summary") a.ManualSummary
    ++ omitEmpty (lit "manual_opinion") a.ManualOpinion

/-- The document written for a `[]string`.  (A nil slice is written `null` and
read back as the nil slice; the model has one empty list.) -/
def stringsToJson (xs : List GoString) : Json := Json.arr (xs.map jsonString)

/-- `json.Marshal` of a `Report`; `none` is an error. -/
def Report.toJson (r : Report) : Option Json :=
  match marshalTime r.Timestamp with
  | none => none
  | some ts =>
    some (Json.obj
      [ (lit "timestamp", ts),
        (lit "successSources", stringsToJson r.SuccessSources),
        (lit "failSources", stringsToJson r.FailSources),
        (lit "articles", Json.arr (r.Articles.map (fun a => Json.obj a.members))) ])

/-- `json.Marshal` of a `ManualReport`; `none` is an error. -/
def ManualReport.toJson (r : ManualReport) : Option Json :=
  match marshalTime r.Timestamp with
  | none => none
  | some ts =>
    some (Json.obj
      [ (lit "timestamp", ts),
        (lit "successSources", stringsToJson r.SuccessSources),
        (lit "failSources", stringsToJson r.FailSources),
        (lit "articles", Json.arr (r.Articles.map (fun a => Json.obj a.members))) ])

/-- The folding under which `encoding/json` matches a key to a field name when
it is not the same text: ASCII letters in lower case, and the two other
characters that fold to an ASCII letter, U+017F to `s` and U+212A to `k`. -/
def foldKey : List UInt8 → List UInt8
  | [] => []
  | 0xC5 :: 0xBF :: rest => 0x73 :: foldKey rest
  | 0xE2 :: 0x84 :: 0xAA :: rest => 0x6B :: foldKey rest
  | b :: rest =>
    (if 0x41 ≤ b.toNat ∧ b.toNat ≤ 0x5A then UInt8.ofNat (b.toNat + 0x20) else b) :: foldKey rest

/-- Whether the key of a member names the field with the tag `name`.  No two
fields of a report struct have the same folded name, so the preference of the
library for an exact match does not show. -/
def keyIs (key name : GoString) : Bool := decide (foldKey key = foldKey name)

/-- Reading a JSON value into a string field that holds `cur`: `null` leaves
the field, a string replaces it, anything else is an error.  `timeText` gives
the text of a string that is a time. -/
def readString (timeText : Int → Int → GoString) (cur : GoString) : Json → Option GoString
  | Json.null => some cur
  | Json.str s => some s
  | Json.time wall zone => some (timeText wall zone)
  | _ => none

/-- Reading the elements of a JSON array one by one. -/
def readItems {α : Type} (f : Json → Option α) : List Json → Option (List α)
  | [] => some []
  | j :: rest =>
    match f j with
    | none => none
    | some a =>
      match readItems f rest with
      | none => none
      | some as => some (a :: as)

/-- Reading a JSON value into a slice field that holds `cur`. -/
def readSlice {α : Type} (f : Json → Option α) (cur : List α) : Json → Option (List α)
  | Json.null => some cur
  | Json.arr items => readItems f items
  | _ => none

/-- `Time.UnmarshalJSON` on a JSON value, for a field that holds `cur`: the
time at the wall clock and the zone offset that the text shows. -/
def readTime (cur : Time) : Json → Option Time
  | Json.null => some cur
  | Json.time wall zone => some ⟨wall, zone * 60⟩
  | _ => none

/-- Reading the members of an object one after the other into a value; a
member is matched to a field by its key and a key of no field is skipped. -/
def readMembers {α : Type} (step : α → GoString → Json → Option α) :
    α → List (GoString × Json) → Option α
  | a, [] => some a
  | a, (key, value) :: rest =>
    match step a key value with
    | none => none
    | some a' => readMembers step a' rest

/-- Reading a JSON value into a struct that holds `cur`. -/
def readObject {α : Type} (step : α → GoString → Json → Option α) (cur : α) : Json → Option α
  | Json.null => some cur
  | Json.obj members => readMembers step cur members
  | _ => none

/-- One member read into an `Article`. -/
def Article.readMember (timeText : Int → Int → GoString) (a : Article) (key : GoString)
    (value : Json) : Option Article :=
  if keyIs key (lit "source") then
    (readString timeText a.Source value).map (fun s => { a with Source := s })
  else if keyIs key (lit "title") then
    (readString timeText a.Title value).map (fun s => { a with Title := s })
  else if keyIs key (lit "url") then
    (readString timeText a.URL value).map (fun s => { a with URL := s })
  else if keyIs key (lit "summary") then
    (readString timeText a.Summary value).map (fun s => { a with Summary := s })
  else some a

/-- One member read into a `ManualArticle`. -/
def ManualArticle.readMember (timeText : Int → Int → GoString) (a : ManualArticle)
    (key : GoString) (value : Json) : Option ManualArticle :=
  if keyIs key (lit "manual_summary") then
    (readString timeText a.ManualSummary value).map (fun s => { a with ManualSummary := s })
  else if keyIs key (lit "manual_opinion") then
    (readString timeText a.ManualOpinion value).map (fun s => { a with ManualOpinion := s })
  else (a.toArticle.readMember timeText key value).map (fun b => { a with toArticle := b })

/-- One member read into a `Report`. -/
def Report.readMember (timeText : Int → Int → GoString) (r : Report) (key : GoString)
    (value : Json) : Option Report :=
  if keyIs key (lit "timestamp") then
    (readTime r.Timestamp value).map (fun t => { r with Timestamp := t })
  else if keyIs key (lit "successSources") then
    (readSlice (readString timeText (lit "")) r.SuccessSources value).map
      (fun xs => { r with SuccessSources := xs })
  else if keyIs key (lit "failSources") then
    (readSlice (readString timeText (lit "")) r.FailSources value).map
      (fun xs => { r with FailSources := xs })
  else if keyIs key (lit "articles") then
    (readSlice (readObject (Article.readMember timeText) ⟨lit "", lit "", lit "", lit ""⟩)
      r.Articles value).map (fun xs => { r with Articles := xs })
  else some r

/-- One member read into a `ManualReport`. -/
def ManualReport.readMember (timeText : Int → Int → GoString) (r : ManualReport)
    (key : GoString) (value : Json) : Option ManualReport :=
  if keyIs key (lit "timestamp") then
    (readTime r.Timestamp value).map (fun t => { r with Timestamp := t })
  else if keyIs key (lit "successSources") then
    (readSlice (readString timeText (lit "")) r.SuccessSources value).map
      (fun xs => { r with SuccessSources := xs })
  else if keyIs key (lit "failSources") then
    (readSlice (readString timeText (lit "")) r.FailSources value).map
      (fun xs => { r with FailSources := xs })
  else if keyIs key (lit "articles") then
    (readSlice (readObject (ManualArticle.readMember timeText) ManualArticle.zero) r.Articles
      value).map (fun xs => { r with Articles := xs })
  else some r

/-- The two report shapes passed as `interface{}` to `saveReportToFile` and
`loadReportFromFile`: how `encoding/json` writes a value, and how it reads a
document into a fresh (zero) value. -/
class JsonValue (α : Type) where
  marshal : α → Option Json
  unmarshal : (Int → Int → GoString) → Json → Option α

instance : JsonValue Report where
  marshal := Report.toJson
  unmarshal := fun timeText j => readObject (Report.readMember timeText) Report.zero j

instance : JsonValue ManualReport where
  marshal := ManualReport.toJson
  unmarshal := fun timeText j =>
    readObject (ManualReport.readMember timeText) ManualReport.zero j

/-- An article after every text of it went through a JSON string. -/
def Article.coerce (a : Article) : Article :=
  ⟨toValidUTF8 a.Source, toValidUTF8 a.Title, toValidUTF8 a.URL, toValidUTF8 a.Summary⟩

/-- A manual article after every text of it went through a JSON string. -/
def ManualArticle.coerce (a : ManualArticle) : ManualArticle :=
  { toArticle := a.toArticle.coerce, ManualSummary := toValidUTF8 a.ManualSummary,
    ManualOpinion := toValidUTF8 a.ManualOpinion }

/-- A report after its timestamp went through its RFC 3339 text and every text
of it through a JSON string. -/
def Report.coerce (r : Report) : Report :=
  ⟨r.Timestamp.reloaded, r.SuccessSources.map toValidUTF8, r.FailSources.map toValidUTF8,
    r.Articles.map Article.coerce⟩

/-- A manual report after its timestamp went through its RFC 3339 text and
every text of it through a JSON string. -/
def ManualReport.coerce (r : ManualReport) : ManualReport :=
  ⟨r.Timestamp.reloaded, r.SuccessSources.map toValidUTF8, r.FailSources.map toValidUTF8,
    r.Articles.map ManualArticle.coerce⟩

/-- Every text of the article is valid UTF-8. -/
def Article.Valid (a : Article) : Prop :=
  ValidUTF8 a.Source ∧ ValidUTF8 a.Title ∧ ValidUTF8 a.URL ∧ ValidUTF8 a.Summary

/-- Every text of the manual article is valid UTF-8. -/
def ManualArticle.Valid (a : ManualArticle) : Prop :=
  a.toArticle.Valid ∧ ValidUTF8 a.ManualSummary ∧ ValidUTF8 a.ManualOpinion

/-- Every text of the report is valid UTF-8. -/
def Report.Valid (r : Report) : Prop :=
  (∀ s ∈ r.SuccessSources, ValidUTF8 s) ∧ (∀ s ∈ r.FailSources, ValidUTF8 s) ∧
    (∀ a ∈ r.Articles, a.Valid)

/-- Every text of the manual report is valid UTF-8. -/
def ManualReport.Valid (r : ManualReport) : Prop :=
  (∀ s ∈ r.SuccessSources, ValidUTF8 s) ∧ (∀ s ∈ r.FailSources, ValidUTF8 s) ∧
    (∀ a ∈ r.Articles, a.Valid)

instance (a : Article) : Decidable a.Valid := by
  unfold Article.Valid; infer_instance

instance (a : ManualArticle) : Decidable a.Valid := by
  unfold ManualArticle.Valid; infer_instance

instance (r : Report) : Decidable r.Valid := by
  unfold Report.Valid; infer_instance

instance (r : ManualReport) : Decidable r.Valid := by
  unfold ManualReport.Valid; infer_instance

/-! ## Report store -/

/-- The files the program sees.  `content name` is `none` when there is no such
file, `some none` for a file that is not the text of a JSON document (an empty
file is one) and `some (some j)` for the text of `j`; `creatable name` is
whether `os.Create(name)` succeeds. -/
structure FileSystem where
  content : GoString → Option (Option Json)
  creatable : GoString → Bool

/-- The file system after `name` was given the content `c`. -/
def FileSystem.write (fs : FileSystem) (name : GoString) (c : Option Json) : FileSystem :=
  { fs with content := fun n => if n = name then some c else fs.content n }

/-- Go: `func saveReportToFile(filename string, report interface{}) error`.
The result is the file system afterwards and whether the error is `nil`.
`os.Create` truncates the file before the report is encoded. -/
def saveReportToFile {α : Type} [JsonValue α] (fs : FileSystem) (filename : GoString)
    (report : α) : FileSystem × Bool :=
  if fs.creatable filename then
    match JsonValue.marshal report with
    | none => (fs.write filename none, false)
    | some j => (fs.write filename (some j), true)
  else (fs, false)

/-- Go: `func loadReportFromFile(filename string, report interface{}) error`
with `report` pointing to a fresh value, as in `extractManualReport`; `none`
is an error. -/
def loadReportFromFile {α : Type} [JsonValue α] (timeText : Int → Int → GoString)
    (fs : FileSystem) (filename : GoString) : Option α :=
  match fs.content filename with
  | none => none
  | some none => none
  | some (some j) => JsonValue.unmarshal timeText j

/-- Go: `const manualReportFile`. -/
def manualReportFile : GoString := lit "report_manually_update.json"

/-! ## The menu -/

/-- What the program is given besides its input: the registry, the library
functions and the colours.  `timeText wall zone` is the RFC 3339 text of a
time, which the program meets only if a file has a time where a text belongs. -/
structure Config where
  rssSources : List (GoString × GoString)
  atoi : GoString → Option Int
  colors : Colors
  timeText : Int → Int → GoString

/-- The state of the process: the global `lastReport` and the files. -/
structure State where
  lastReport : Report
  fs : FileSystem

/-- The state at start-up. -/
def State.initial (fs : FileSystem) : State := ⟨Report.zero, fs⟩

/-- Everything that comes from outside during one pass through the loop of
`main`: the choice (after `strings.TrimSpace`), the course of the crawl and the
clock reading after it (choice `1`), the lines typed in the edit loop (choice
`3`) and in the view loop (choice `4`). -/
structure Iteration where
  choiceStr : GoString
  order : List (GoString × GoString)
  fetch : GoString → GoString → FetchResult
  since : Nat → Duration
  now : Time
  edits : List EditInput
  views : List GoString

/-- Go: `func manualUpdateReport()`. -/
def manualUpdateReport (cfg : Config) (st : State) (edits : List EditInput) :
    Option (State × List Output) :=
  if st.lastReport.Timestamp.IsZero then some (st, [Output.noReportYet])
  else
    let manualReport := beginOverlay st.lastReport
    match editLoop cfg.atoi manualReport edits with
    | none => none
    | some (m, outs) =>
      let saved := saveReportToFile st.fs manualReportFile m
      some ({ st with fs := saved.1 },
        outs ++ [if saved.2 then Output.saved else Output.saveFailed])

/-- Go: `func extractManualReport()`. -/
def extractManualReport (cfg : Config) (st : State) (views : List GoString) :
    Option (List Output) :=
  match (loadReportFromFile cfg.timeText st.fs manualReportFile : Option ManualReport) with
  | none => some [Output.loadFailed]
  | some manualReport => viewLoop cfg.atoi cfg.colors manualReport views

/-- One pass through the loop of `main`: the state afterwards, what was
reported, and whether the loop goes on.  `none` is a pass that does not end on
this input. -/
def mainStep (cfg : Config) (st : State) (it : Iteration) :
    Option (State × List Output × Bool) :=
  if it.choiceStr = lit "1" then
    match crawlRSSFeeds cfg.rssSources it.order it.fetch it.since with
    | none => none
    | some out =>
      let lastReport : Report :=
        { Timestamp := it.now, SuccessSources := out.successSources,
          FailSources := out.failSources, Articles := out.articles }
      some ({ st with lastReport := lastReport },
        [Output.crawlStarted] ++ out.progress.map Output.progress ++ [Output.results lastReport],
        true)
  else if it.choiceStr = lit "2" then
    if st.lastReport.Timestamp.IsZero then some (st, [Output.noReportYet], true)
    else some (st, [Output.results st.lastReport], true)
  else if it.choiceStr = lit "3" then
    (manualUpdateReport cfg st it.edits).map (fun r => (r.1, r.2, true))
  else if it.choiceStr = lit "4" then
    (extractManualReport cfg st it.views).map (fun outs => (st, outs, true))
  else if it.choiceStr = lit "0" then some (st, [Output.goodbye], false)
  else some (st, [Output.invalidChoice], true)

/-- The loop of `main` over the passes of `its`, until choice `0`. -/
def mainLoop (cfg : Config) : State → List Iteration → Option (State × List Output)
  | st, [] => some (st, [])
  | st, it :: rest =>
    match mainStep cfg st it with
    | none => none
    | some (st', outs, false) => some (st', outs)
    | some (st', outs, true) => (mainLoop cfg st' rest).map (fun r => (r.1, outs ++ r.2))

/-! ## Number parsing -/

/-- The value of a decimal digit. -/
def digitValue (b : UInt8) : Option Nat :=
  if 48 ≤ b.toNat ∧ b.toNat ≤ 57 then some (b.toNat - 48) else none

/-- The value of a run of decimal digits, from the accumulator `acc`. -/
def parseDigits : List UInt8 → Nat → Option Nat
  | [], acc => some acc
  | b :: rest, acc =>
    match digitValue b with
    | none => none
    | some d => parseDigits rest (acc * 10 + d)

/-- A model of `strconv.Atoi` of the Go standard library: an optional sign, one
or more decimal digits, a value that fits 64 bits.  The claims on the loops are
proved for every parsing function; this one is used to run them. -/
def Atoi (s : GoString) : Option Int :=
  let signed : Bool × List UInt8 :=
    match s with
    | 43 :: rest => (false, rest)
    | 45 :: rest => (true, rest)
    | _ => (false, s)
  if signed.2 = [] then none
  else
    match parseDigits signed.2 0 with
    | none => none
    | some n =>
      let v : Int := if signed.1 then -(n : Int) else (n : Int)
      if -(2 ^ 63) ≤ v ∧ v < 2 ^ 63 then some v else none

/-! ## Example data -/

/-- A feed entry with a description. -/
def itemWithDescription : Item :=
  { Title := lit "t1", Link := lit "u1", Description := lit "d1", Content := lit "c1" }

/-- A feed entry without a description. -/
def itemWithoutDescription : Item :=
  { Title := lit "t2", Link := lit "u2", Description := lit "", Content := lit "c2" }

/-- A registry of three sources. -/
def threeSources : List (GoString × GoString) :=
  [(lit "A", lit "http://a"), (lit "B", lit "http://b"), (lit "C", lit "http://c")]

/-- A completion order of the three sources. -/
def threeSourcesOrder : List (GoString × GoString) :=
  [(lit "C", lit "http://c"), (lit "A", lit "http://a"), (lit "B", lit "http://b")]

/-- Fetch results: `A` has 2 entries, `B` has 5, every other source fails. -/
def threeSourcesFetch (source _url : GoString) : FetchResult :=
  if source = lit "A" then some [itemWithDescription, itemWithoutDescription]
  else if source = lit "B" then some (List.replicate 5 itemWithDescription)
  else none

/-- Clock readings: the `k`-th completion happens after `k` seconds. -/
def secondsSince (k : Nat) : Duration := 1000000000 * (k : Int)

/-- Five articles of one source. -/
def fiveArticles : List Article :=
  [ ⟨lit "A", lit "t1", lit "u1", lit "s1"⟩, ⟨lit "A", lit "t2", lit "u2", lit "s2"⟩,
    ⟨lit "A", lit "t3", lit "u3", lit "s3"⟩, ⟨lit "A", lit "t4", lit "u4", lit "s4"⟩,
    ⟨lit "A", lit "t5", lit "u5", lit "s5"⟩ ]

/-- A report of five articles. -/
def fiveArticleReport : Report :=
  { Timestamp := ⟨63871286400000000000, 0⟩, SuccessSources := [lit "A"],
    FailSources := [lit "C"],
    Articles := fiveArticles }

/-- Colour functions that leave the text as it is (`color.NoColor`). -/
def noColors : Colors := ⟨id, id, id⟩

/-- An article with a manual summary and no manual opinion. -/
def summarisedArticle : ManualArticle :=
  { Source := lit "A", Title := lit "t", URL := lit "u", Summary := lit "s",
    ManualSummary := lit "x", ManualOpinion := lit "" }

/-- An article with a manual opinion and no manual summary. -/
def annotatedArticle : ManualArticle :=
  { Source := lit "A", Title := lit "t", URL := lit "u", Summary := lit "s",
    ManualSummary := lit "", ManualOpinion := lit "y" }

/-- The overlay of the report of five articles. -/
def fiveArticleOverlay : ManualReport := beginOverlay fiveArticleReport

/-- The RFC 3339 text of the two times of the examples, the zero time and the
start of 2025 in UTC. -/
def sampleTimeText (wall zone : Int) : GoString :=
  if wall = 0 ∧ zone = 0 then lit "0001-01-01T00:00:00Z"
  else if wall = 63871286400000000000 ∧ zone = 0 then lit "2025-01-01T00:00:00Z"
  else lit ""

/-- A file system without files, in which every file can be created. -/
def emptyFiles : FileSystem := ⟨fun _ => none, fun _ => true⟩

/-- The program with the registry of three sources. -/
def sampleConfig : Config := ⟨threeSources, Atoi, noColors, sampleTimeText⟩

/-- A pass through the menu with the given choice, a crawl of the three
sources that ends at the start of 2025, and an edit session that sets the
manual summary of the second article to `x` and then leaves. -/
def pass (choiceStr : GoString) : Iteration :=
  { choiceStr := choiceStr, order := threeSourcesOrder, fetch := threeSourcesFetch,
    since := secondsSince, now := ⟨63871286400000000000, 0⟩,
    edits := [⟨lit "2", lit "x", lit ""⟩, ⟨lit "0", lit "", lit ""⟩],
    views := [lit "2", lit "0"] }

/-- A state that holds the report of five articles. -/
def fiveArticleState : State := ⟨fiveArticleReport, emptyFiles⟩

/-- The overlay of the report of five articles after the operator typed the
summary `caf\xe9` (Latin-1, not valid UTF-8) for the second article. -/
def latin1Report : ManualReport :=
  (editStep Atoi fiveArticleOverlay (lit "2") [0x63, 0x61, 0x66, 0xE9] (lit "")).1

/-- The report of five articles stamped in a zone 30 seconds east of UTC. -/
def oddZoneReport : Report :=
  { fiveArticleReport with Timestamp := ⟨63871286400000000000, 30⟩ }

/-- The overlay of the report of five articles after the operator typed the
summary `x` for the second article. -/
def editedReport : ManualReport :=
  (editStep Atoi fiveArticleOverlay (lit "2") (lit "x") (lit "")).1

/-- The report of the crawl of the three sources that ends at the start of 2025. -/
def threeSourcesReport : Report :=
  { Timestamp := ⟨63871286400000000000, 0⟩
    SuccessSources := [lit "A", lit "B"]
    FailSources := [lit "C"]
    Articles :=
      [mkArticle (lit "A") itemWithDescription, mkArticle (lit "A") itemWithoutDescription]
        ++ List.replicate 5 (mkArticle (lit "B") itemWithDescription) }

/-! ## Lemmas on the crawl -/

theorem appendItems_eq (source : GoString) (items : List Item) (count : Nat)
    (articles : List Article) :
    appendItems source items count articles
      = articles ++ (items.take (5 - count)).map (mkArticle source) := by
  induction items generalizing count articles with
  | nil => simp [appendItems]
  | cons item rest ih =>
    unfold appendItems
    by_cases h : count ≥ 5
    · have h0 : 5 - count = 0 := by omega
      simp [h, h0]
    · have h1 : 5 - count = (5 - (count + 1)) + 1 := by omega
      rw [if_neg h, ih, h1, List.take_succ_cons]
      simp

theorem runWorkers_eq (total : Nat) (fetch : GoString → GoString → FetchResult)
    (since : Nat → Duration) (order : List (GoString × GoString)) (st : CrawlState) :
    runWorkers total fetch since st order = some
      { successSources := st.successSources ++ (order.filter (succeeded fetch)).map Prod.fst
        failSources := st.failSources ++ (order.filter (fun e => !succeeded fetch e)).map Prod.fst
        articles := st.articles ++ order.flatMap (contribution fetch)
        currentSource := st.currentSource + order.length
        progress := st.progress ++
          (List.range order.length).map (fun i => progressAt total since (st.currentSource + i + 1)) } := by
  induction order generalizing st with
  | nil => simp [runWorkers]
  | cons e rest ih =>
    obtain ⟨source, url⟩ := e
    have hne : ((st.currentSource + 1 : Nat) : Int) ≠ 0 := by omega
    cases hf : fetch source url with
    | none =>
      simp only [runWorkers, worker, durDiv, hf, if_neg hne, bind, Option.bind, pure]
      rw [ih]
      have hp : (⟨st.currentSource + 1, total, durMul (wrapInt64 (Int.tdiv
          (since (st.currentSource + 1)) ((st.currentSource + 1 : Nat) : Int)))
          ((total : Int) - ((st.currentSource + 1 : Nat) : Int))⟩ : ProgressCall)
          = progressAt total since (st.currentSource + 1) := rfl
      have hk : ∀ a : Nat, st.currentSource + 1 + a + 1 = st.currentSource + (a + 1) + 1 := by
        intro a; omega
      simp [succeeded, contribution, hf, List.range_succ_eq_map, hp, hk, Function.comp_def]
      exact ⟨by omega, by simp [progressAt]⟩
    | some items =>
      simp only [runWorkers, worker, durDiv, hf, if_neg hne, bind, Option.bind, pure]
      rw [ih]
      have hp : (⟨st.currentSource + 1, total, durMul (wrapInt64 (Int.tdiv
          (since (st.currentSource + 1)) ((st.currentSource + 1 : Nat) : Int)))
          ((total : Int) - ((st.currentSource + 1 : Nat) : Int))⟩ : ProgressCall)
          = progressAt total since (st.currentSource + 1) := rfl
      have hk : ∀ a : Nat, st.currentSource + 1 + a + 1 = st.currentSource + (a + 1) + 1 := by
        intro a; omega
      simp [succeeded, contribution, hf, List.range_succ_eq_map, hp, hk, Function.comp_def,
        appendItems_eq]
      exact ⟨by omega, by simp [progressAt]⟩

theorem crawlRSSFeeds_eq (rssSources order : List (GoString × GoString))
    (fetch : GoString → GoString → FetchResult) (since : Nat → Duration) :
    crawlRSSFeeds rssSources order fetch since = some
      { successSources := (order.filter (succeeded fetch)).map Prod.fst
        failSources := (order.filter (fun e => !succeeded fetch e)).map Prod.fst
        articles := order.flatMap (contribution fetch)
        currentSource := order.length
        progress := (List.range order.length).map
          (fun i => progressAt rssSources.length since (i + 1)) } := by
  unfold crawlRSSFeeds
  rw [runWorkers_eq]
  simp [CrawlState.init]

theorem source_of_mem_contribution (fetch : GoString → GoString → FetchResult)
    (e : GoString × GoString) (a : Article) (h : a ∈ contribution fetch e) :
    a.Source = e.1 ∧ succeeded fetch e = true := by
  unfold contribution at h
  cases hf : fetch e.1 e.2 with
  | none => simp [hf] at h
  | some items =>
    simp only [hf, List.mem_map] at h
    obtain ⟨it, _, rfl⟩ := h
    exact ⟨rfl, by simp [succeeded, hf]⟩

theorem filter_contribution_self (fetch : GoString → GoString → FetchResult)
    (e : GoString × GoString) :
    (contribution fetch e).filter (fun a => decide (a.Source = e.1)) = contribution fetch e := by
  rw [List.filter_eq_self]
  intro a ha
  simp [(source_of_mem_contribution fetch e a ha).1]

theorem filter_contribution_other (fetch : GoString → GoString → FetchResult)
    (e : GoString × GoString) (s : GoString) (h : e.1 ≠ s) :
    (contribution fetch e).filter (fun a => decide (a.Source = s)) = [] := by
  rw [List.filter_eq_nil_iff]
  intro a ha
  simp [(source_of_mem_contribution fetch e a ha).1, h]

theorem filter_articles_absent (fetch : GoString → GoString → FetchResult)
    (order : List (GoString × GoString)) (s : GoString) (h : s ∉ order.map Prod.fst) :
    (order.flatMap (contribution fetch)).filter (fun a => decide (a.Source = s)) = [] := by
  induction order with
  | nil => simp
  | cons e rest ih =>
    simp only [List.map_cons, List.mem_cons, not_or] at h
    rw [List.flatMap_cons, List.filter_append, ih h.2,
      filter_contribution_other fetch e s (fun he => h.1 he.symm)]
    rfl

theorem filter_articles_of_mem (fetch : GoString → GoString → FetchResult)
    (order : List (GoString × GoString)) (e : GoString × GoString)
    (hkeys : (order.map Prod.fst).Nodup) (he : e ∈ order) :
    (order.flatMap (contribution fetch)).filter (fun a => decide (a.Source = e.1))
      = contribution fetch e := by
  induction order with
  | nil => simp at he
  | cons x rest ih =>
    rw [List.map_cons, List.nodup_cons] at hkeys
    rw [List.flatMap_cons, List.filter_append]
    rcases List.mem_cons.mp he with rfl | hmem
    · rw [filter_contribution_self, filter_articles_absent fetch rest e.1 hkeys.1]
      simp
    · have hne : x.1 ≠ e.1 := by
        intro hx
        exact hkeys.1 (hx ▸ List.mem_map_of_mem Prod.fst hmem)
      rw [filter_contribution_other fetch x e.1 hne, ih hkeys.2 hmem]
      rfl

theorem length_contribution_le (fetch : GoString → GoString → FetchResult)
    (e : GoString × GoString) : (contribution fetch e).length ≤ 5 := by
  unfold contribution
  cases fetch e.1 e.2 with
  | none => simp
  | some items => simp [List.length_take]

theorem wrapInt64_of_range (x : Int) (h0 : -(2 ^ 63) ≤ x) (h1 : x < 2 ^ 63) : wrapInt64 x = x := by
  unfold wrapInt64
  rw [Int.emod_eq_of_lt (by omega) (by omega)]
  omega

/-! ## Claims on the crawl -/

/-- C1: for every registry with distinct source names, every assignment of
fetch results and every completion order, `crawlRSSFeeds` returns, the lengths
of `successSources` and `failSources` add up to the number of registry entries,
neither list has a repeated name, no name is in both, and a name is in one of
them exactly when it is a key of the registry. -/
theorem crawl_sources_partition (rssSources order : List (GoString × GoString))
    (fetch : GoString → GoString → FetchResult) (since : Nat → Duration)
    (hkeys : (rssSources.map Prod.fst).Nodup) (hperm : order.Perm rssSources) :
    ∃ out, crawlRSSFeeds rssSources order fetch since = some out ∧
      out.successSources.length + out.failSources.length = rssSources.length ∧
      out.successSources.Nodup ∧ out.failSources.Nodup ∧
      (∀ s, ¬ (s ∈ out.successSources ∧ s ∈ out.failSources)) ∧
      (∀ s, (s ∈ out.successSources ∨ s ∈ out.failSources) ↔ s ∈ rssSources.map Prod.fst) := by
  refine ⟨_, crawlRSSFeeds_eq rssSources order fetch since, ?_, ?_, ?_, ?_, ?_⟩
  · simp only [List.length_map]
    rw [← List.length_eq_length_filter_add, hperm.length_eq]
  · have hk : (order.map Prod.fst).Nodup := ((hperm.map Prod.fst).nodup_iff).mpr hkeys
    exact List.Nodup.sublist ((List.filter_sublist order).map Prod.fst) hk
  · have hk : (order.map Prod.fst).Nodup := ((hperm.map Prod.fst).nodup_iff).mpr hkeys
    exact List.Nodup.sublist ((List.filter_sublist order).map Prod.fst) hk
  · have hk : (order.map Prod.fst).Nodup := ((hperm.map Prod.fst).nodup_iff).mpr hkeys
    rintro s ⟨h1, h2⟩
    simp only [List.mem_map, List.mem_filter] at h1 h2
    obtain ⟨e1, ⟨he1, hs1⟩, rfl⟩ := h1
    obtain ⟨e2, ⟨he2, hs2⟩, h12⟩ := h2
    have : e2 = e1 := List.inj_on_of_nodup_map hk he2 he1 h12
    subst this
    simp [hs1] at hs2
  · intro s
    simp only [List.mem_map, List.mem_filter]
    constructor
    · rintro (⟨e, ⟨he, _⟩, rfl⟩ | ⟨e, ⟨he, _⟩, rfl⟩)
      · exact ⟨e, hperm.mem_iff.mp he, rfl⟩
      · exact ⟨e, hperm.mem_iff.mp he, rfl⟩
    · rintro ⟨e, he, rfl⟩
      have he' := hperm.mem_iff.mpr he
      cases hs : succeeded fetch e with
      | true => exact Or.inl ⟨e, ⟨he', hs⟩, rfl⟩
      | false => exact Or.inr ⟨e, ⟨he', by simp [hs]⟩, rfl⟩

theorem crawl_sources_partition_witness :
    ∃ out, crawlRSSFeeds threeSources threeSourcesOrder threeSourcesFetch secondsSince = some out ∧
      out.successSources.length + out.failSources.length = threeSources.length ∧
      out.successSources.Nodup ∧ out.failSources.Nodup ∧
      (∀ s, ¬ (s ∈ out.successSources ∧ s ∈ out.failSources)) ∧
      (∀ s, (s ∈ out.successSources ∨ s ∈ out.failSources) ↔ s ∈ threeSources.map Prod.fst) :=
  crawl_sources_partition threeSources threeSourcesOrder threeSourcesFetch secondsSince
    (by decide) (by decide)

/-- C2: `trimSummary t 300` is `t` when `t` has at most 300 bytes and otherwise
the first 300 bytes of `t` followed by the three bytes of `...`; so a text of
301 bytes gives its first 300 bytes and the marker, a text of 300 bytes is
unchanged and the empty text stays empty. -/
theorem trimSummary_300 (t : GoString) :
    (t.length ≤ 300 → trimSummary t 300 = t) ∧
    (300 < t.length →
      trimSummary t 300 = t.take 300 ++ [46, 46, 46] ∧ (t.take 300).length = 300 ∧
      (trimSummary t 300).length = 303) ∧
    (t.length = 301 → trimSummary t 300 = t.take 300 ++ lit "...") ∧
    (t.length = 300 → trimSummary t 300 = t) ∧
    trimSummary [] 300 = [] := by
  have hm : lit "..." = [46, 46, 46] := by decide
  refine ⟨?_, ?_, ?_, ?_, ?_⟩
  · intro h
    simp [trimSummary, Nat.not_lt.mpr h]
  · intro h
    have hl : (t.take 300).length = 300 := by
      rw [List.length_take]; omega
    refine ⟨by simp [trimSummary, h, hm], hl, ?_⟩
    simp only [trimSummary, gt_iff_lt, h, if_true, hm, List.length_append, hl]
    rfl
  · intro h
    have h' : 300 < t.length := by omega
    simp [trimSummary, h']
  · intro h
    simp [trimSummary, h]
  · simp [trimSummary]

theorem trimSummary_300_witness :
    trimSummary (List.replicate 301 65) 300 = (List.replicate 301 65).take 300 ++ [46, 46, 46] ∧
    trimSummary (List.replicate 300 65) 300 = List.replicate 300 65 ∧
    trimSummary (lit "abc") 300 = lit "abc" :=
  ⟨((trimSummary_300 (List.replicate 301 65)).2.1 (by rw [List.length_replicate]; omega)).1,
   (trimSummary_300 (List.replicate 300 65)).2.2.2.1 (by rw [List.length_replicate]),
   (trimSummary_300 (lit "abc")).1 (by decide)⟩

theorem take_min_length {α : Type} (k : Nat) (l : List α) :
    l.take (min k l.length) = l.take k := by
  by_cases h : k ≤ l.length
  · rw [Nat.min_eq_left h]
  · have h' : l.length ≤ k := by omega
    rw [Nat.min_eq_right h', List.take_of_length_le (Nat.le_refl _), List.take_of_length_le h']

theorem contribution_of_some (fetch : GoString → GoString → FetchResult) (s url : GoString)
    (items : List Item) (hf : fetch s url = some items) :
    contribution fetch (s, url) = (items.take (min 5 items.length)).map (fun it =>
      { Source := s, Title := it.Title, URL := it.Link,
        Summary := if it.Description = [] then it.Content else it.Description }) := by
  simp only [contribution, hf, take_min_length]
  rfl

/-- C4: for a source `s` of the registry whose fetch succeeded with entries
`items`, the articles of the outcome with source `s` are, in feed order, the
articles of the first `min 5 n` entries, each with source `s`, title and url
copied and summary the description, or the content when the description is
empty, every text copied whole; no source has more than 5 articles, and the
number of articles is the sum over the registry of `min 5 n` for the
successful sources. -/
theorem crawl_articles_per_source (rssSources order : List (GoString × GoString))
    (fetch : GoString → GoString → FetchResult) (since : Nat → Duration)
    (hkeys : (rssSources.map Prod.fst).Nodup) (hperm : order.Perm rssSources) :
    ∃ out, crawlRSSFeeds rssSources order fetch since = some out ∧
      (∀ s url items, (s, url) ∈ rssSources → fetch s url = some items →
        out.articles.filter (fun a => decide (a.Source = s))
          = (items.take (min 5 items.length)).map (fun it =>
              { Source := s, Title := it.Title, URL := it.Link,
                Summary := if it.Description = [] then it.Content else it.Description })) ∧
      (∀ s, (out.articles.filter (fun a => decide (a.Source = s))).length ≤ 5) ∧
      out.articles.length = (rssSources.map (fun e =>
        match fetch e.1 e.2 with
        | none => 0
        | some items => min 5 items.length)).sum := by
  have hk : (order.map Prod.fst).Nodup := ((hperm.map Prod.fst).nodup_iff).mpr hkeys
  refine ⟨_, crawlRSSFeeds_eq rssSources order fetch since, ?_, ?_, ?_⟩
  · intro s url items hmem hf
    have h := filter_articles_of_mem fetch order (s, url) hk (hperm.mem_iff.mpr hmem)
    simp only at h
    rw [h, contribution_of_some fetch s url items hf]
  · intro s
    by_cases hs : s ∈ order.map Prod.fst
    · obtain ⟨e, he, rfl⟩ := List.mem_map.mp hs
      simp only
      rw [filter_articles_of_mem fetch order e hk he]
      exact length_contribution_le fetch e
    · simp only
      rw [filter_articles_absent fetch order s hs]
      simp
  · simp only [List.length_flatMap]
    rw [(hperm.map _).sum_eq]
    congr 1
    apply List.map_congr_left
    intro e _
    simp only [Function.comp, contribution]
    cases fetch e.1 e.2 with
    | none => rfl
    | some items => simp [List.length_take]

theorem crawl_articles_per_source_witness :
    ∃ out, crawlRSSFeeds threeSources threeSourcesOrder threeSourcesFetch secondsSince = some out ∧
      (∀ s url items, (s, url) ∈ threeSources → threeSourcesFetch s url = some items →
        out.articles.filter (fun a => decide (a.Source = s))
          = (items.take (min 5 items.length)).map (fun it =>
              { Source := s, Title := it.Title, URL := it.Link,
                Summary := if it.Description = [] then it.Content else it.Description })) ∧
      (∀ s, (out.articles.filter (fun a => decide (a.Source = s))).length ≤ 5) ∧
      out.articles.length = 7 :=
  crawl_articles_per_source threeSources threeSourcesOrder threeSourcesFetch secondsSince
    (by decide) (by decide)

/-- C5: in every crawl outcome the source of every article is a member of
`successSources` and of no member of `failSources`, and a source whose fetch
failed is in `failSources` and has no article. -/
theorem crawl_articles_from_success (rssSources order : List (GoString × GoString))
    (fetch : GoString → GoString → FetchResult) (since : Nat → Duration)
    (hkeys : (rssSources.map Prod.fst).Nodup) (hperm : order.Perm rssSources) :
    ∃ out, crawlRSSFeeds rssSources order fetch since = some out ∧
      (∀ a ∈ out.articles, a.Source ∈ out.successSources) ∧
      (∀ a ∈ out.articles, a.Source ∉ out.failSources) ∧
      (∀ s url, (s, url) ∈ rssSources → fetch s url = none →
        s ∈ out.failSources ∧ out.articles.filter (fun a => decide (a.Source = s)) = []) := by
  have hk : (order.map Prod.fst).Nodup := ((hperm.map Prod.fst).nodup_iff).mpr hkeys
  refine ⟨_, crawlRSSFeeds_eq rssSources order fetch since, ?_, ?_, ?_⟩
  · intro a ha
    obtain ⟨e, he, hae⟩ := List.mem_flatMap.mp ha
    obtain ⟨hsrc, hok⟩ := source_of_mem_contribution fetch e a hae
    exact List.mem_map.mpr ⟨e, List.mem_filter.mpr ⟨he, hok⟩, hsrc.symm⟩
  · intro a ha hfail
    obtain ⟨e, he, hae⟩ := List.mem_flatMap.mp ha
    obtain ⟨hsrc, hok⟩ := source_of_mem_contribution fetch e a hae
    obtain ⟨e2, he2, h2⟩ := List.mem_map.mp hfail
    obtain ⟨hmem2, hbad⟩ := List.mem_filter.mp he2
    have : e2 = e := List.inj_on_of_nodup_map hk hmem2 he (h2.trans hsrc)
    subst this
    simp [hok] at hbad
  · intro s url hmem hf
    have hmem' := hperm.mem_iff.mpr hmem
    constructor
    · exact List.mem_map.mpr ⟨(s, url), List.mem_filter.mpr ⟨hmem', by simp [succeeded, hf]⟩, rfl⟩
    · have h := filter_articles_of_mem fetch order (s, url) hk hmem'
      simp only at h
      rw [h]
      simp [contribution, hf]

theorem crawl_articles_from_success_witness :
    ∃ out, crawlRSSFeeds threeSources threeSourcesOrder threeSourcesFetch secondsSince = some out ∧
      (∀ a ∈ out.articles, a.Source ∈ out.successSources) ∧
      (∀ a ∈ out.articles, a.Source ∉ out.failSources) ∧
      (∀ s url, (s, url) ∈ threeSources → threeSourcesFetch s url = none →
        s ∈ out.failSources ∧ out.articles.filter (fun a => decide (a.Source = s)) = []) :=
  crawl_articles_from_success threeSources threeSourcesOrder threeSourcesFetch secondsSince
    (by decide) (by decide)

theorem progressAt_exact (total : Nat) (since : Nat → Duration) (k : Nat)
    (h1 : 1 ≤ k) (hk : k ≤ total) (h0 : 0 ≤ since k)
    (hfit : since k * (total : Int) < 2 ^ 63) :
    progressAt total since k = ⟨k, total, since k / (k : Int) * ((total : Int) - (k : Int))⟩ := by
  have hkpos : (0 : Int) < (k : Int) := by omega
  have hq0 : 0 ≤ since k / (k : Int) := Int.ediv_nonneg h0 (le_of_lt hkpos)
  have hq1 : since k / (k : Int) ≤ since k := Int.ediv_le_self _ h0
  have hd0 : (0 : Int) ≤ (total : Int) - (k : Int) := by omega
  have hd1 : (total : Int) - (k : Int) ≤ (total : Int) := by omega
  have ht1 : (1 : Int) ≤ (total : Int) := by omega
  have hx : since k ≤ since k * (total : Int) := by nlinarith
  have hp0 : 0 ≤ since k / (k : Int) * ((total : Int) - (k : Int)) := mul_nonneg hq0 hd0
  have hp1 : since k / (k : Int) * ((total : Int) - (k : Int)) ≤ since k * (total : Int) :=
    mul_le_mul hq1 hd1 hd0 h0
  unfold progressAt durMul
  have hb : since k * (total : Int) < 9223372036854775808 := by
    have h263 : (2 : Int) ^ 63 = 9223372036854775808 := by norm_num
    rw [← h263]; exact hfit
  rw [Int.tdiv_eq_ediv h0 (le_of_lt hkpos),
    wrapInt64_of_range (since k / (k : Int)) (by norm_num; linarith) (by norm_num; linarith),
    wrapInt64_of_range _ (by norm_num; linarith) (by norm_num; linarith)]

/-- C10: in a crawl over `N ≥ 1` sources, whatever the fetch results and the
completion order, the progress sink is called exactly `N` times; for
`k = 1..N` the divisor `k` of the `k`-th call is not zero and the call receives
`completed = k`, `total = N` and `eta = (elapsed / k) * (N - k)` in 64-bit
duration arithmetic with truncated division, which is the exact product when
the elapsed time is not negative and `elapsed * N` fits 64 bits; the last call
receives `completed = N` and `eta = 0`. -/
theorem crawl_progress_calls (rssSources order : List (GoString × GoString))
    (fetch : GoString → GoString → FetchResult) (since : Nat → Duration)
    (hN : 1 ≤ rssSources.length) (hperm : order.Perm rssSources) :
    ∃ out, crawlRSSFeeds rssSources order fetch since = some out ∧
      out.progress.length = rssSources.length ∧
      (∀ k, 1 ≤ k → k ≤ rssSources.length →
        (k : Int) ≠ 0 ∧
        durDiv (since k) (k : Int) = some (wrapInt64 (Int.tdiv (since k) (k : Int))) ∧
        out.progress[k - 1]? = some
          ⟨k, rssSources.length,
            durMul (wrapInt64 (Int.tdiv (since k) (k : Int)))
              ((rssSources.length : Int) - (k : Int))⟩) ∧
      (∀ k, 1 ≤ k → k ≤ rssSources.length → 0 ≤ since k →
        since k * (rssSources.length : Int) < 2 ^ 63 →
        out.progress[k - 1]? = some
          ⟨k, rssSources.length, since k / (k : Int) * ((rssSources.length : Int) - (k : Int))⟩) ∧
      out.progress.getLast? = some ⟨rssSources.length, rssSources.length, 0⟩ := by
  have hlen : order.length = rssSources.length := hperm.length_eq
  have hget : ∀ k, 1 ≤ k → k ≤ rssSources.length →
      ((List.range order.length).map (fun i => progressAt rssSources.length since (i + 1)))[k - 1]?
        = some (progressAt rssSources.length since k) := by
    intro k h1 hk
    rw [List.getElem?_map, List.getElem?_range (by omega)]
    simp only [Option.map_some']
    congr 2
    omega
  refine ⟨_, crawlRSSFeeds_eq rssSources order fetch since, ?_, ?_, ?_, ?_⟩
  · simp [hlen]
  · intro k h1 hk
    have hk0 : (k : Int) ≠ 0 := by omega
    exact ⟨hk0, by simp [durDiv, hk0], hget k h1 hk⟩
  · intro k h1 hk h0 hfit
    simp only
    rw [hget k h1 hk, progressAt_exact rssSources.length since k h1 hk h0 hfit]
  · simp only
    rw [List.getLast?_eq_getElem?, List.length_map, List.length_range,
      show order.length - 1 = rssSources.length - 1 from by rw [hlen],
      hget rssSources.length hN (Nat.le_refl _)]
    simp [progressAt, durMul, wrapInt64]

theorem crawl_progress_calls_witness :
    ∃ out, crawlRSSFeeds threeSources threeSourcesOrder threeSourcesFetch secondsSince = some out ∧
      out.progress.length = threeSources.length ∧
      (∀ k, 1 ≤ k → k ≤ threeSources.length →
        (k : Int) ≠ 0 ∧
        durDiv (secondsSince k) (k : Int)
          = some (wrapInt64 (Int.tdiv (secondsSince k) (k : Int))) ∧
        out.progress[k - 1]? = some
          ⟨k, threeSources.length,
            durMul (wrapInt64 (Int.tdiv (secondsSince k) (k : Int)))
              ((threeSources.length : Int) - (k : Int))⟩) ∧
      (∀ k, 1 ≤ k → k ≤ threeSources.length → 0 ≤ secondsSince k →
        secondsSince k * (threeSources.length : Int) < 2 ^ 63 →
        out.progress[k - 1]? = some
          ⟨k, threeSources.length,
            secondsSince k / (k : Int) * ((threeSources.length : Int) - (k : Int))⟩) ∧
      out.progress.getLast? = some ⟨threeSources.length, threeSources.length, 0⟩ :=
  crawl_progress_calls threeSources threeSourcesOrder threeSourcesFetch secondsSince
    (by decide) (by decide)

/-! ## Claims on the overlay and on the rendering -/

theorem take_succ_set {α : Type} (l : List α) (i : Nat) (x : α) (h : i < l.length) :
    (l.set i x).take (i + 1) = l.take i ++ [x] := by
  rw [List.set_eq_take_append_cons_drop, if_pos h]
  have hl : (l.take i).length = i := by rw [List.length_take]; omega
  rw [List.take_append_eq_append_take, hl]
  simp [List.take_take]

theorem fillArticles_eq (arts : List Article) (i : Nat) (articles : List ManualArticle)
    (h : articles.length = i + arts.length) :
    fillArticles arts i articles = articles.take i ++ arts.map (fun art =>
      { toArticle := art, ManualSummary := [], ManualOpinion := [] }) := by
  induction arts generalizing i articles with
  | nil =>
    simp only [fillArticles, List.map_nil, List.append_nil]
    rw [List.take_of_length_le (by simp at h; omega)]
  | cons art rest ih =>
    simp only [List.length_cons] at h
    unfold fillArticles
    rw [ih (i + 1) _ (by rw [List.length_set]; omega), take_succ_set _ _ _ (by omega)]
    simp
    rfl

theorem beginOverlay_eq (r : Report) :
    beginOverlay r =
      { Timestamp := r.Timestamp, SuccessSources := r.SuccessSources,
        FailSources := r.FailSources,
        Articles := r.Articles.map (fun art =>
          { toArticle := art, ManualSummary := [], ManualOpinion := [] }) } := by
  unfold beginOverlay
  simp only
  rw [fillArticles_eq _ _ _ (by simp)]
  simp

/-- C7: one pass through the edit loop.  When the selection parses as a number
`i` with `1 ≤ i ≤ n`, the pass replaces `ManualSummary` and `ManualOpinion` of
`Articles[i-1]` by the supplied texts and changes nothing else: same timestamp,
same source lists, same number of articles, every other article and the four
original fields of `Articles[i-1]` as before.  When the selection is not `0`
and does not parse, or parses as a number outside `1..n`, the pass reports an
invalid selection and the report is unchanged. -/
theorem editStep_spec (atoi : GoString → Option Int) (m : ManualReport)
    (input summary opinion : GoString) (hzero : atoi (lit "0") = some 0) :
    (∀ i : Nat, atoi input = some (i : Int) → 1 ≤ i → i ≤ m.Articles.length →
      ∃ old, m.Articles[i - 1]? = some old ∧
        editStep atoi m input summary opinion
          = ({ m with
               Articles := m.Articles.set (i - 1)
                 { toArticle := old.toArticle, ManualSummary := summary,
                   ManualOpinion := opinion } },
             LoopOutcome.done (i : Int)) ∧
        (editStep atoi m input summary opinion).1.Timestamp = m.Timestamp ∧
        (editStep atoi m input summary opinion).1.SuccessSources = m.SuccessSources ∧
        (editStep atoi m input summary opinion).1.FailSources = m.FailSources ∧
        (editStep atoi m input summary opinion).1.Articles.length = m.Articles.length ∧
        (editStep atoi m input summary opinion).1.Articles[i - 1]?
          = some { toArticle := old.toArticle, ManualSummary := summary,
                   ManualOpinion := opinion } ∧
        (∀ j, j ≠ i - 1 →
          (editStep atoi m input summary opinion).1.Articles[j]? = m.Articles[j]?)) ∧
    (input ≠ lit "0" →
      (atoi input = none ∨
        ∃ v : Int, atoi input = some v ∧ (v < 1 ∨ v > (m.Articles.length : Int))) →
      editStep atoi m input summary opinion = (m, LoopOutcome.invalid)) := by
  constructor
  · intro i hi h1 hn
    have hlt : i - 1 < m.Articles.length := by omega
    have hin : input ≠ lit "0" := by
      intro h0
      rw [h0, hzero] at hi
      have : (0 : Int) = (i : Int) := Option.some.inj hi
      omega
    have hguard : ¬ ((i : Int) < 1 ∨ (i : Int) > (m.Articles.length : Int)) := by omega
    have hidx : ((i : Int) - 1).toNat = i - 1 := by omega
    have hget : m.Articles[i - 1]? = some (m.Articles[i - 1]) := List.getElem?_eq_getElem hlt
    have hstep : editStep atoi m input summary opinion
        = ({ m with
             Articles := m.Articles.set (i - 1)
               { toArticle := (m.Articles[i - 1]).toArticle, ManualSummary := summary,
                 ManualOpinion := opinion } },
           LoopOutcome.done (i : Int)) := by
      simp only [editStep, if_neg hin, hi, if_neg hguard, hidx, setManual, hget]
      simp
    refine ⟨m.Articles[i - 1], hget, hstep, ?_, ?_, ?_, ?_, ?_, ?_⟩
    · rw [hstep]
    · rw [hstep]
    · rw [hstep]
    · rw [hstep]; simp
    · rw [hstep]; simp [List.getElem?_set, hlt]
    · intro j hj
      rw [hstep]
      simp only [List.getElem?_set]
      rw [if_neg (fun h => hj h.symm)]
  · intro hin hbad
    rcases hbad with hnone | ⟨v, hv, hrange⟩
    · simp [editStep, hin, hnone]
    · simp only [editStep, if_neg hin, hv, if_pos hrange]

theorem editStep_spec_witness :
    (∃ old, fiveArticleOverlay.Articles[2 - 1]? = some old ∧
      editStep Atoi fiveArticleOverlay (lit "2") (lit "x") (lit "")
        = ({ fiveArticleOverlay with
             Articles := fiveArticleOverlay.Articles.set (2 - 1)
               { toArticle := old.toArticle, ManualSummary := lit "x",
                 ManualOpinion := lit "" } },
           LoopOutcome.done ((2 : Nat) : Int)) ∧
      (editStep Atoi fiveArticleOverlay (lit "2") (lit "x") (lit "")).1.Timestamp
        = fiveArticleOverlay.Timestamp ∧
      (editStep Atoi fiveArticleOverlay (lit "2") (lit "x") (lit "")).1.SuccessSources
        = fiveArticleOverlay.SuccessSources ∧
      (editStep Atoi fiveArticleOverlay (lit "2") (lit "x") (lit "")).1.FailSources
        = fiveArticleOverlay.FailSources ∧
      (editStep Atoi fiveArticleOverlay (lit "2") (lit "x") (lit "")).1.Articles.length
        = fiveArticleOverlay.Articles.length ∧
      (editStep Atoi fiveArticleOverlay (lit "2") (lit "x") (lit "")).1.Articles[2 - 1]?
        = some { toArticle := old.toArticle, ManualSummary := lit "x",
                 ManualOpinion := lit "" } ∧
      (∀ j, j ≠ 2 - 1 →
        (editStep Atoi fiveArticleOverlay (lit "2") (lit "x") (lit "")).1.Articles[j]?
          = fiveArticleOverlay.Articles[j]?)) ∧
    editStep Atoi fiveArticleOverlay (lit "six") (lit "x") (lit "")
      = (fiveArticleOverlay, LoopOutcome.invalid) ∧
    editStep Atoi fiveArticleOverlay (lit "6") (lit "x") (lit "")
      = (fiveArticleOverlay, LoopOutcome.invalid) :=
  ⟨(editStep_spec Atoi fiveArticleOverlay (lit "2") (lit "x") (lit "") (by decide)).1 2
      (by decide) (by decide) (by decide),
   (editStep_spec Atoi fiveArticleOverlay (lit "six") (lit "x") (lit "") (by decide)).2
      (by decide) (Or.inl (by decide)),
   (editStep_spec Atoi fiveArticleOverlay (lit "6") (lit "x") (lit "") (by decide)).2
      (by decide) (Or.inr ⟨6, by decide, Or.inr (by decide)⟩)⟩

/-- The scenario of the specification: index 2 of a report of five articles,
manual summary `x`. -/
theorem editStep_scenario :
    (editStep Atoi fiveArticleOverlay (lit "2") (lit "x") (lit "")).1.Articles.map
      (fun a => (a.ManualSummary, a.ManualOpinion))
      = [([], []), (lit "x", []), ([], []), ([], []), ([], [])] := by
  decide

/-- C8: the detail block of `extractManualReport` prints as summary
`trimSummary a.ManualSummary 300` when the manual summary is not empty and
`trimSummary a.Summary 300` otherwise, and as opinion the whole manual opinion
when it is not empty and the fixed line "no manual opinion yet" otherwise; the
summary line does not depend on the manual opinion nor the opinion line on the
two summaries; the view loop prints this block for the article selected. -/
theorem renderDetail_spec (c : Colors) (a : ManualArticle) :
    (renderDetail c a).length = 5 ∧
    (a.ManualSummary ≠ [] → (renderDetail c a)[3]? = some
      (lit "Tóm tắt ngắn gọn (thủ công): " ++ c.black (trimSummary a.ManualSummary 300)
        ++ lit "\n")) ∧
    (a.ManualSummary = [] → (renderDetail c a)[3]? = some
      (lit "Tóm tắt ngắn gọn: " ++ c.black (trimSummary a.Summary 300) ++ lit "\n")) ∧
    (a.ManualOpinion ≠ [] → (renderDetail c a)[4]? = some
      (lit "Nhận định (thủ công):\n" ++ a.ManualOpinion ++ lit "\n\n")) ∧
    (a.ManualOpinion = [] → (renderDetail c a)[4]? = some
      (lit "Nhận định: Chưa có nhận định thủ công.\n\n")) ∧
    (∀ b : ManualArticle, b.ManualSummary = a.ManualSummary → b.Summary = a.Summary →
      (renderDetail c b)[3]? = (renderDetail c a)[3]?) ∧
    (∀ b : ManualArticle, b.ManualOpinion = a.ManualOpinion →
      (renderDetail c b)[4]? = (renderDetail c a)[4]?) ∧
    (∀ (atoi : GoString → Option Int) (m : ManualReport) (input : GoString) (i : Nat),
      input ≠ lit "0" → atoi input = some (i : Int) → 1 ≤ i → i ≤ m.Articles.length →
      m.Articles[i - 1]? = some a → (viewStep atoi c m input).2 = renderDetail c a) := by
  have he : lit "" = ([] : GoString) := rfl
  refine ⟨rfl, ?_, ?_, ?_, ?_, ?_, ?_, ?_⟩
  · intro h
    simp [renderDetail, he, h]
  · intro h
    simp [renderDetail, he, h]
  · intro h
    simp [renderDetail, he, h]
  · intro h
    simp [renderDetail, he, h]
  · intro b h1 h2
    simp [renderDetail, h1, h2]
  · intro b h1
    simp [renderDetail, h1]
  · intro atoi m input i hin hi h1 hn hget
    have hguard : ¬ ((i : Int) < 1 ∨ (i : Int) > (m.Articles.length : Int)) := by omega
    have hidx : ((i : Int) - 1).toNat = i - 1 := by omega
    simp only [viewStep, if_neg hin, hi, if_neg hguard, hidx, hget]

theorem renderDetail_spec_witness :
    (renderDetail noColors summarisedArticle)[3]? = some
      (lit "Tóm tắt ngắn gọn (thủ công): "
        ++ noColors.black (trimSummary summarisedArticle.ManualSummary 300) ++ lit "\n") ∧
    (renderDetail noColors summarisedArticle)[4]? = some
      (lit "Nhận định: Chưa có nhận định thủ công.\n\n") ∧
    (renderDetail noColors annotatedArticle)[3]? = some
      (lit "Tóm tắt ngắn gọn: " ++ noColors.black (trimSummary annotatedArticle.Summary 300)
        ++ lit "\n") ∧
    (renderDetail noColors annotatedArticle)[4]? = some
      (lit "Nhận định (thủ công):\n" ++ annotatedArticle.ManualOpinion ++ lit "\n\n") :=
  ⟨(renderDetail_spec noColors summarisedArticle).2.1 (by decide),
   (renderDetail_spec noColors summarisedArticle).2.2.2.2.1 (by decide),
   (renderDetail_spec noColors annotatedArticle).2.2.1 (by decide),
   (renderDetail_spec noColors annotatedArticle).2.2.2.1 (by decide)⟩

/-! ## Claims on the report store -/

theorem runeLen_of_rune (p t : List UInt8) (h : isRune p = true) :
    runeLen (p ++ t) = p.length := by
  match p, h with
  | [a], h =>
    simp only [isRune, decide_eq_true_eq] at h
    simp [runeLen, h]
  | [a, b], h =>
    simp only [isRune, Bool.and_eq_true, decide_eq_true_eq] at h
    obtain ⟨⟨h1, h2⟩, h3⟩ := h
    have e1 : ¬ a.toNat < 0x80 := by omega
    have e2 : ¬ a.toNat < 0xC2 := by omega
    have e3 : a.toNat < 0xE0 := by omega
    simp [runeLen, e1, e2, e3, h3]
  | [a, b, c], h =>
    simp only [isRune, Bool.and_eq_true, decide_eq_true_eq] at h
    obtain ⟨h1, h3⟩ := h
    have e1 : ¬ a.toNat < 0x80 := by omega
    have e2 : ¬ a.toNat < 0xC2 := by omega
    have e3 : ¬ a.toNat < 0xE0 := by omega
    have e4 : a.toNat < 0xF0 := by omega
    simp only [runeLen, List.cons_append, List.nil_append, e1, e2, e3, e4, if_false, if_true,
      h3, List.length_cons, List.length_nil]
    have : (if a.toNat = 0xE0 then 0xA0 else 0x80) ≤ b.toNat ∧
        b.toNat ≤ (if a.toNat = 0xED then 0x9F else 0xBF) := by
      split_ifs <;> omega
    simp [this]
  | [a, b, c, d], h =>
    simp only [isRune, Bool.and_eq_true, decide_eq_true_eq] at h
    obtain ⟨⟨h1, h3⟩, h4⟩ := h
    have e1 : ¬ a.toNat < 0x80 := by omega
    have e2 : ¬ a.toNat < 0xC2 := by omega
    have e3 : ¬ a.toNat < 0xE0 := by omega
    have e4 : ¬ a.toNat < 0xF0 := by omega
    have e5 : a.toNat < 0xF5 := by omega
    simp only [runeLen, List.cons_append, List.nil_append, e1, e2, e3, e4, e5, if_false, if_true,
      h3, h4, List.length_cons, List.length_nil]
    have : (if a.toNat = 0xF0 then 0x90 else 0x80) ≤ b.toNat ∧
        b.toNat ≤ (if a.toNat = 0xF4 then 0x8F else 0xBF) := by
      split_ifs <;> omega
    simp [this]
  | [], h => simp [isRune] at h
  | _ :: _ :: _ :: _ :: _ :: _, h => simp [isRune] at h


theorem rune_of_runeLen (s : List UInt8) (n : Nat) (h : runeLen s = n + 1) :
    isRune (s.take (n + 1)) = true ∧ n + 1 ≤ s.length := by
  cases s with
  | nil => simp [runeLen] at h
  | cons b0 rest =>
    by_cases c1 : b0.toNat < 0x80
    · simp only [runeLen, c1, if_true] at h
      have : n = 0 := by omega
      subst this
      simp [isRune, c1]
    by_cases c2 : b0.toNat < 0xC2
    · simp only [runeLen, c1, c2, if_true, if_false] at h
      omega
    by_cases c3 : b0.toNat < 0xE0
    · cases rest with
      | nil => simp [runeLen, c1, c2, c3] at h
      | cons b1 r =>
        simp only [runeLen, c1, c2, c3, if_true, if_false] at h
        by_cases c6 : isCont b1 = true
        · rw [if_pos c6] at h
          have : n = 1 := by omega
          subst this
          simp only [List.take_succ_cons, List.take_zero, isRune, Bool.and_eq_true,
            decide_eq_true_eq, c6, and_true, List.length_cons]
          omega
        · rw [if_neg c6] at h
          omega
    by_cases c4 : b0.toNat < 0xF0
    · match rest with
      | [] => simp [runeLen, c1, c2, c3, c4] at h
      | [_] => simp [runeLen, c1, c2, c3, c4] at h
      | b1 :: b2 :: r =>
        simp only [runeLen, c1, c2, c3, c4, if_true, if_false] at h
        by_cases c6 : ((if b0.toNat = 0xE0 then 0xA0 else 0x80) ≤ b1.toNat ∧
            b1.toNat ≤ (if b0.toNat = 0xED then 0x9F else 0xBF) ∧ isCont b2 = true)
        · rw [if_pos c6] at h
          have : n = 2 := by omega
          subst this
          obtain ⟨h1, h2, h3⟩ := c6
          simp only [List.take_succ_cons, List.take_zero, isRune, Bool.and_eq_true,
            decide_eq_true_eq, h3, and_true, List.length_cons]
          constructor
          · split_ifs at h1 h2 <;> omega
          · omega
        · rw [if_neg c6] at h
          omega
    by_cases c5 : b0.toNat < 0xF5
    · match rest with
      | [] => simp [runeLen, c1, c2, c3, c4, c5] at h
      | [_] => simp [runeLen, c1, c2, c3, c4, c5] at h
      | [_, _] => simp [runeLen, c1, c2, c3, c4, c5] at h
      | b1 :: b2 :: b3 :: r =>
        simp only [runeLen, c1, c2, c3, c4, c5, if_true, if_false] at h
        by_cases c6 : ((if b0.toNat = 0xF0 then 0x90 else 0x80) ≤ b1.toNat ∧
            b1.toNat ≤ (if b0.toNat = 0xF4 then 0x8F else 0xBF) ∧ isCont b2 = true ∧
            isCont b3 = true)
        · rw [if_pos c6] at h
          have : n = 3 := by omega
          subst this
          obtain ⟨h1, h2, h3, h4⟩ := c6
          simp only [List.take_succ_cons, List.take_zero, isRune, Bool.and_eq_true,
            decide_eq_true_eq, h3, h4, and_true, List.length_cons]
          constructor
          · split_ifs at h1 h2 <;> omega
          · omega
        · rw [if_neg c6] at h
          omega
    · simp only [runeLen, c1, c2, c3, c4, c5, if_false] at h
      omega

theorem coerceRunes_fuel (f1 : Nat) : ∀ (f2 : Nat) (s : List UInt8),
    s.length ≤ f1 → s.length ≤ f2 → coerceRunes f1 s = coerceRunes f2 s := by
  induction f1 with
  | zero =>
    intro f2 s h1 _
    have hs : s = [] := List.length_eq_zero.mp (by omega)
    subst hs
    cases f2 <;> rfl
  | succ f1 ih =>
    intro f2 s h1 h2
    cases s with
    | nil => cases f2 <;> rfl
    | cons b rest =>
      cases f2 with
      | zero => simp at h2
      | succ f2 =>
        simp only [List.length_cons] at h1 h2
        unfold coerceRunes
        cases hr : runeLen (b :: rest) with
        | zero =>
          simp only
          rw [ih f2 rest (by omega) (by omega)]
        | succ n =>
          simp only
          have hl : ((b :: rest).drop (n + 1)).length ≤ rest.length := by
            simp [List.length_drop]
          rw [ih f2 _ (by omega) (by omega)]

theorem toValidUTF8_cons_invalid (b : UInt8) (rest : List UInt8)
    (h : runeLen (b :: rest) = 0) :
    toValidUTF8 (b :: rest) = [0xEF, 0xBF, 0xBD] ++ toValidUTF8 rest := by
  simp only [toValidUTF8, List.length_cons, coerceRunes, h]

theorem coerceRunes_succ_cons (fuel : Nat) (b : UInt8) (rest : List UInt8) :
    coerceRunes (fuel + 1) (b :: rest) =
      match runeLen (b :: rest) with
      | 0 => [0xEF, 0xBF, 0xBD] ++ coerceRunes fuel rest
      | n => (b :: rest).take n ++ coerceRunes fuel ((b :: rest).drop n) := rfl

theorem toValidUTF8_rune (p t : List UInt8) (h : isRune p = true) :
    toValidUTF8 (p ++ t) = p ++ toValidUTF8 t := by
  have hl := runeLen_of_rune p t h
  cases p with
  | nil => simp [isRune] at h
  | cons a q =>
    simp only [toValidUTF8, List.cons_append, List.length_cons, List.length_append]
    simp only [List.cons_append, List.length_cons] at hl
    rw [coerceRunes_succ_cons, hl]
    simp only
    have e1 : List.take (q.length + 1) (a :: (q ++ t)) = a :: q := by
      rw [← List.cons_append, List.take_left' (by simp)]
    have e2 : List.drop (q.length + 1) (a :: (q ++ t)) = t := by
      rw [← List.cons_append, List.drop_left' (by simp)]
    rw [e1, e2, coerceRunes_fuel (q.length + t.length) t.length t (by omega) (by omega)]
    rfl

theorem isRune_length (p : List UInt8) (h : isRune p = true) : 1 ≤ p.length ∧ p.length ≤ 4 := by
  match p, h with
  | [], h => simp [isRune] at h
  | [_], _ => simp
  | [_, _], _ => simp
  | [_, _, _], _ => simp
  | [_, _, _, _], _ => simp
  | _ :: _ :: _ :: _ :: _ :: _, h => simp [isRune] at h

theorem validUTF8_rune (p t : List UInt8) (h : isRune p = true) :
    validUTF8 (p ++ t) = validUTF8 t := by
  match p, h with
  | [], h => simp [isRune] at h
  | [a], h =>
    show validUTF8 (a :: t) = validUTF8 t
    rw [validUTF8.eq_def]
    simp [h]
  | [a, b], h =>
    have h1 : isRune [a] = false := by
      simp only [isRune, Bool.and_eq_true, decide_eq_true_eq] at h
      simp only [isRune, decide_eq_false_iff_not]
      omega
    show validUTF8 (a :: b :: t) = validUTF8 t
    rw [validUTF8.eq_def]
    simp [h, h1]
  | [a, b, c], h =>
    have h1 : isRune [a] = false := by
      simp only [isRune, Bool.and_eq_true, decide_eq_true_eq] at h
      simp only [isRune, decide_eq_false_iff_not]
      omega
    have h2 : isRune [a, b] = false := by
      simp only [isRune, Bool.and_eq_true, decide_eq_true_eq] at h
      simp only [isRune, Bool.and_eq_false_iff, decide_eq_false_iff_not]
      left; omega
    show validUTF8 (a :: b :: c :: t) = validUTF8 t
    rw [validUTF8.eq_def]
    simp [h, h1, h2]
  | [a, b, c, d], h =>
    have h1 : isRune [a] = false := by
      simp only [isRune, Bool.and_eq_true, decide_eq_true_eq] at h
      simp only [isRune, decide_eq_false_iff_not]
      omega
    have h2 : isRune [a, b] = false := by
      simp only [isRune, Bool.and_eq_true, decide_eq_true_eq] at h
      simp only [isRune, Bool.and_eq_false_iff, decide_eq_false_iff_not]
      left; omega
    have h3 : isRune [a, b, c] = false := by
      simp only [isRune, Bool.and_eq_true, decide_eq_true_eq] at h
      simp only [isRune, Bool.and_eq_false_iff, decide_eq_false_iff_not]
      left; omega
    show validUTF8 (a :: b :: c :: d :: t) = validUTF8 t
    rw [validUTF8.eq_def]
    simp [h, h1, h2, h3]
  | _ :: _ :: _ :: _ :: _ :: _, h => simp [isRune] at h

theorem validUTF8_split (s : List UInt8) (hs : s ≠ []) (h : validUTF8 s = true) :
    ∃ p t, s = p ++ t ∧ isRune p = true ∧ validUTF8 t = true := by
  cases s with
  | nil => exact absurd rfl hs
  | cons a r1 =>
    unfold validUTF8 at h
    by_cases c1 : isRune [a] = true
    · rw [if_pos c1] at h
      exact ⟨[a], r1, rfl, c1, h⟩
    rw [if_neg c1] at h
    cases r1 with
    | nil => simp at h
    | cons b r2 =>
      simp only at h
      by_cases c2 : isRune [a, b] = true
      · rw [if_pos c2] at h
        exact ⟨[a, b], r2, rfl, c2, h⟩
      rw [if_neg c2] at h
      cases r2 with
      | nil => simp at h
      | cons c r3 =>
        simp only at h
        by_cases c3 : isRune [a, b, c] = true
        · rw [if_pos c3] at h
          exact ⟨[a, b, c], r3, rfl, c3, h⟩
        rw [if_neg c3] at h
        cases r3 with
        | nil => simp at h
        | cons d r4 =>
          simp only at h
          by_cases c4 : isRune [a, b, c, d] = true
          · rw [if_pos c4] at h
            exact ⟨[a, b, c, d], r4, rfl, c4, h⟩
          · rw [if_neg c4] at h
            simp at h

theorem toValidUTF8_of_valid : ∀ (n : Nat) (s : List UInt8), s.length ≤ n →
    validUTF8 s = true → toValidUTF8 s = s := by
  intro n
  induction n with
  | zero =>
    intro s hl _
    have hs : s = [] := List.length_eq_zero.mp (by omega)
    subst hs; rfl
  | succ n ih =>
    intro s hl h
    by_cases hs : s = []
    · subst hs; rfl
    obtain ⟨p, t, rfl, hp, ht⟩ := validUTF8_split s hs h
    have hpl := (isRune_length p hp).1
    rw [toValidUTF8_rune p t hp, ih t (by simp at hl; omega) ht]

theorem validUTF8_toValidUTF8 : ∀ (n : Nat) (s : List UInt8), s.length ≤ n →
    validUTF8 (toValidUTF8 s) = true := by
  intro n
  induction n with
  | zero =>
    intro s hl
    have hs : s = [] := List.length_eq_zero.mp (by omega)
    subst hs; rfl
  | succ n ih =>
    intro s hl
    cases s with
    | nil => rfl
    | cons b rest =>
      cases hr : runeLen (b :: rest) with
      | zero =>
        rw [toValidUTF8_cons_invalid b rest hr,
          validUTF8_rune [0xEF, 0xBF, 0xBD] _ (by decide)]
        exact ih rest (by simp at hl; omega)
      | succ k =>
        obtain ⟨hp, hk⟩ := rune_of_runeLen (b :: rest) k hr
        have hsplit : b :: rest = (b :: rest).take (k + 1) ++ (b :: rest).drop (k + 1) :=
          (List.take_append_drop _ _).symm
        rw [hsplit, toValidUTF8_rune _ _ hp, validUTF8_rune _ _ hp]
        apply ih
        simp only [List.length_drop, List.length_cons] at hl ⊢
        omega

theorem toValidUTF8_eq_self_iff (s : GoString) : toValidUTF8 s = s ↔ ValidUTF8 s := by
  constructor
  · intro h
    have hv := validUTF8_toValidUTF8 s.length s (Nat.le_refl _)
    rw [h] at hv
    exact hv
  · intro h
    exact toValidUTF8_of_valid s.length s (Nat.le_refl _) h

theorem toValidUTF8_no_rune (b : UInt8) (rest : List UInt8)
    (h : ∀ p t, isRune p = true → b :: rest ≠ p ++ t) :
    toValidUTF8 (b :: rest) = [0xEF, 0xBF, 0xBD] ++ toValidUTF8 rest := by
  cases hr : runeLen (b :: rest) with
  | zero => exact toValidUTF8_cons_invalid b rest hr
  | succ k =>
    obtain ⟨hp, _⟩ := rune_of_runeLen (b :: rest) k hr
    exact absurd (List.take_append_drop (k + 1) (b :: rest)).symm (h _ _ hp)

theorem map_eq_self_iff {α : Type} (f : α → α) (xs : List α) :
    xs.map f = xs ↔ ∀ x ∈ xs, f x = x := by
  induction xs with
  | nil => simp
  | cons x rest ih => simp [ih]

theorem reloaded_eq_iff (t : Time) : t.reloaded = t ↔ t.offset % 60 = 0 := by
  obtain ⟨w, o⟩ := t
  simp only [Time.reloaded, Time.mk.injEq, true_and]
  constructor
  · intro h
    omega
  · intro h
    exact Int.tdiv_mul_cancel (Int.dvd_of_emod_eq_zero h)

theorem article_coerce_iff (a : Article) : a.coerce = a ↔ a.Valid := by
  obtain ⟨s, t, u, m⟩ := a
  simp only [Article.coerce, Article.mk.injEq, Article.Valid, toValidUTF8_eq_self_iff]

theorem manualArticle_coerce_iff (a : ManualArticle) : a.coerce = a ↔ a.Valid := by
  obtain ⟨art, ms, mo⟩ := a
  simp only [ManualArticle.coerce, ManualArticle.mk.injEq, ManualArticle.Valid,
    toValidUTF8_eq_self_iff, article_coerce_iff]

theorem report_coerce_iff (r : Report) :
    r.coerce = r ↔ r.Valid ∧ r.Timestamp.offset % 60 = 0 := by
  obtain ⟨ts, ss, fs, arts⟩ := r
  simp only [Report.coerce, Report.mk.injEq, Report.Valid, map_eq_self_iff,
    toValidUTF8_eq_self_iff, article_coerce_iff, reloaded_eq_iff]
  tauto

theorem manualReport_coerce_iff (r : ManualReport) :
    r.coerce = r ↔ r.Valid ∧ r.Timestamp.offset % 60 = 0 := by
  obtain ⟨ts, ss, fs, arts⟩ := r
  simp only [ManualReport.coerce, ManualReport.mk.injEq, ManualReport.Valid, map_eq_self_iff,
    toValidUTF8_eq_self_iff, manualArticle_coerce_iff, reloaded_eq_iff]
  tauto

theorem readItems_map {α β : Type} (f : Json → Option β) (g : α → Json) (h : α → β)
    (hfg : ∀ x, f (g x) = some (h x)) (xs : List α) :
    readItems f (xs.map g) = some (xs.map h) := by
  induction xs with
  | nil => rfl
  | cons x rest ih => simp [readItems, hfg, ih]

theorem read_article (timeText : Int → Int → GoString) (a : Article) :
    readObject (Article.readMember timeText) ⟨lit "", lit "", lit "", lit ""⟩
      (Json.obj a.members) = some a.coerce := rfl

theorem read_manualArticle (timeText : Int → Int → GoString) (a : ManualArticle) :
    readObject (ManualArticle.readMember timeText) ManualArticle.zero (Json.obj a.members)
      = some a.coerce := by
  obtain ⟨art, ms, mo⟩ := a
  by_cases h1 : ms = lit "" <;> by_cases h2 : mo = lit ""
  · subst h1; subst h2; rfl
  · subst h1
    simp only [ManualArticle.members, omitEmpty, if_neg h2, if_true]
    rfl
  · subst h2
    simp only [ManualArticle.members, omitEmpty, if_neg h1, if_true]
    rfl
  · simp only [ManualArticle.members, omitEmpty, if_neg h1, if_neg h2]
    rfl

theorem read_strings (timeText : Int → Int → GoString) (xs : List GoString)
    (cur : List GoString) :
    readSlice (readString timeText (lit "")) cur (stringsToJson xs)
      = some (xs.map toValidUTF8) := by
  simp only [readSlice, stringsToJson]
  exact readItems_map (readString timeText (lit "")) jsonString toValidUTF8 (fun _ => rfl) xs

theorem readSlice_arr {α : Type} (f : Json → Option α) (cur : List α) (items : List Json) :
    readSlice f cur (Json.arr items) = readItems f items := rfl

theorem marshalTime_eq (t : Time) (j : Json) (h : marshalTime t = some j) :
    j = Json.time t.wall (Int.tdiv t.offset 60) := by
  unfold marshalTime at h
  simp only at h
  split_ifs at h
  exact (Option.some.inj h).symm

theorem marshalTime_isSome (t : Time) :
    (marshalTime t).isSome = true ↔
      yearInRange t.wall = true ∧ (Int.tdiv t.offset 60).natAbs / 60 < 24 := by
  unfold marshalTime
  simp only
  split_ifs with h
  · exact ⟨fun _ => h, fun _ => rfl⟩
  · exact ⟨fun hh => by simp at hh, fun hh => absurd hh h⟩

theorem read_report (timeText : Int → Int → GoString) (r : Report) (j : Json)
    (h : Report.toJson r = some j) :
    readObject (Report.readMember timeText) Report.zero j = some r.coerce := by
  unfold Report.toJson at h
  cases hts : marshalTime r.Timestamp with
  | none => simp [hts] at h
  | some ts =>
    simp only [hts, Option.some.injEq] at h
    subst h
    have hj := marshalTime_eq _ _ hts
    subst hj
    have harts : readItems
        (readObject (Article.readMember timeText) ⟨lit "", lit "", lit "", lit ""⟩)
        (r.Articles.map (fun a => Json.obj a.members)) = some (r.Articles.map Article.coerce) :=
      readItems_map _ (fun a : Article => Json.obj a.members) Article.coerce
        (read_article timeText) _
    simp +decide [readObject, readMembers, Report.readMember, keyIs, readTime, read_strings,
      readSlice_arr, harts, Report.zero, Report.coerce, Time.reloaded]

theorem read_manualReport (timeText : Int → Int → GoString) (r : ManualReport) (j : Json)
    (h : ManualReport.toJson r = some j) :
    readObject (ManualReport.readMember timeText) ManualReport.zero j = some r.coerce := by
  unfold ManualReport.toJson at h
  cases hts : marshalTime r.Timestamp with
  | none => simp [hts] at h
  | some ts =>
    simp only [hts, Option.some.injEq] at h
    subst h
    have hj := marshalTime_eq _ _ hts
    subst hj
    have harts : readItems (readObject (ManualArticle.readMember timeText) ManualArticle.zero)
        (r.Articles.map (fun a => Json.obj a.members))
          = some (r.Articles.map ManualArticle.coerce) :=
      readItems_map _ (fun a : ManualArticle => Json.obj a.members) ManualArticle.coerce
        (read_manualArticle timeText) _
    simp +decide [readObject, readMembers, ManualReport.readMember, keyIs, readTime,
      read_strings, readSlice_arr, harts, ManualReport.zero, ManualReport.coerce, Time.reloaded]

theorem load_after_save {α : Type} [JsonValue α] (timeText : Int → Int → GoString)
    (fs : FileSystem) (filename : GoString) (r : α)
    (h : (saveReportToFile fs filename r).2 = true) :
    ∃ j, JsonValue.marshal r = some j ∧
      (loadReportFromFile timeText (saveReportToFile fs filename r).1 filename : Option α)
        = JsonValue.unmarshal timeText j := by
  unfold saveReportToFile at h ⊢
  by_cases hc : fs.creatable filename = true
  · rw [if_pos hc] at h ⊢
    cases hm : (JsonValue.marshal r : Option Json) with
    | none => simp [hm] at h
    | some j =>
      refine ⟨j, rfl, ?_⟩
      simp [loadReportFromFile, FileSystem.write]
  · rw [if_neg hc] at h
    simp at h

theorem save_ok_iff {α : Type} [JsonValue α] (fs : FileSystem) (filename : GoString) (r : α) :
    (saveReportToFile fs filename r).2 = true ↔
      fs.creatable filename = true ∧ (JsonValue.marshal r : Option Json).isSome = true := by
  unfold saveReportToFile
  by_cases hc : fs.creatable filename = true
  · rw [if_pos hc]
    cases (JsonValue.marshal r : Option Json) <;> simp [hc]
  · rw [if_neg hc]
    simp [hc]

theorem report_marshal_isSome (r : Report) :
    (JsonValue.marshal r : Option Json).isSome = (marshalTime r.Timestamp).isSome := by
  show (Report.toJson r).isSome = _
  unfold Report.toJson
  cases marshalTime r.Timestamp <;> rfl

theorem manualReport_marshal_isSome (r : ManualReport) :
    (JsonValue.marshal r : Option Json).isSome = (marshalTime r.Timestamp).isSome := by
  show (ManualReport.toJson r).isSome = _
  unfold ManualReport.toJson
  cases marshalTime r.Timestamp <;> rfl

/-- C3, as the code has it: when `saveReportToFile` returns no error,
`loadReportFromFile` of the same file into a fresh value succeeds and yields
the report with the zone offset of its timestamp cut to whole minutes and with
every text coerced to valid UTF-8; the loaded report is equal to the saved one
in every field (timestamp, source lists, the articles in order with their
fields, an optional field that was left out loading as the empty string)
exactly when every text of the report is valid UTF-8 and the zone offset of
the timestamp is a whole number of minutes.  The save returns no error exactly
when the file can be created, the year of the timestamp is in 0..9999 and its
zone hour below 24.  An optional field is left out of the encoding exactly
when it is empty.  The coercion leaves a string as it is exactly when it is
well-formed UTF-8, copies a well-formed byte sequence at the head of a string
and puts `EF BF BD` for a first byte at which no well-formed sequence starts.
This holds for `Report` and for `ManualReport`. -/
theorem save_load_roundtrip (timeText : Int → Int → GoString) (fs : FileSystem)
    (filename : GoString) :
    (∀ r : Report, (saveReportToFile fs filename r).2 = true →
      (loadReportFromFile timeText (saveReportToFile fs filename r).1 filename : Option Report)
        = some r.coerce ∧
      ((loadReportFromFile timeText (saveReportToFile fs filename r).1 filename
          : Option Report) = some r ↔ r.Valid ∧ r.Timestamp.offset % 60 = 0)) ∧
    (∀ r : ManualReport, (saveReportToFile fs filename r).2 = true →
      (loadReportFromFile timeText (saveReportToFile fs filename r).1 filename
        : Option ManualReport) = some r.coerce ∧
      ((loadReportFromFile timeText (saveReportToFile fs filename r).1 filename
          : Option ManualReport) = some r ↔ r.Valid ∧ r.Timestamp.offset % 60 = 0)) ∧
    (∀ r : Report, (saveReportToFile fs filename r).2 = true ↔
      fs.creatable filename = true ∧ yearInRange r.Timestamp.wall = true ∧
        (Int.tdiv r.Timestamp.offset 60).natAbs / 60 < 24) ∧
    (∀ r : ManualReport, (saveReportToFile fs filename r).2 = true ↔
      fs.creatable filename = true ∧ yearInRange r.Timestamp.wall = true ∧
        (Int.tdiv r.Timestamp.offset 60).natAbs / 60 < 24) ∧
    (∀ a : ManualArticle,
      (a.ManualSummary = [] ↔ lit "manual_summary" ∉ a.members.map Prod.fst) ∧
      (a.ManualOpinion = [] ↔ lit "manual_opinion" ∉ a.members.map Prod.fst)) ∧
    (∀ s : GoString, (toValidUTF8 s = s ↔ validUTF8 s = true) ∧
      validUTF8 (toValidUTF8 s) = true) ∧
    (∀ p t : GoString, isRune p = true → toValidUTF8 (p ++ t) = p ++ toValidUTF8 t) ∧
    (∀ (b : UInt8) (rest : GoString), (∀ p t, isRune p = true → b :: rest ≠ p ++ t) →
      toValidUTF8 (b :: rest) = [0xEF, 0xBF, 0xBD] ++ toValidUTF8 rest) := by
  refine ⟨?_, ?_, ?_, ?_, ?_, ?_, ?_, ?_⟩
  · intro r h
    obtain ⟨j, hj, hload⟩ := load_after_save timeText fs filename r h
    have hread : (JsonValue.unmarshal timeText j : Option Report) = some r.coerce :=
      read_report timeText r j hj
    refine ⟨hload.trans hread, ?_⟩
    rw [hload, hread, Option.some.injEq]
    exact report_coerce_iff r
  · intro r h
    obtain ⟨j, hj, hload⟩ := load_after_save timeText fs filename r h
    have hread : (JsonValue.unmarshal timeText j : Option ManualReport) = some r.coerce :=
      read_manualReport timeText r j hj
    refine ⟨hload.trans hread, ?_⟩
    rw [hload, hread, Option.some.injEq]
    exact manualReport_coerce_iff r
  · intro r
    rw [save_ok_iff, report_marshal_isSome, marshalTime_isSome]
  · intro r
    rw [save_ok_iff, manualReport_marshal_isSome, marshalTime_isSome]
  · intro a
    have he : lit "" = ([] : GoString) := rfl
    by_cases h1 : a.ManualSummary = [] <;> by_cases h2 : a.ManualOpinion = [] <;>
      simp +decide [ManualArticle.members, Article.members, omitEmpty, he, h1, h2]
  · intro s
    exact ⟨toValidUTF8_eq_self_iff s, validUTF8_toValidUTF8 s.length s (Nat.le_refl _)⟩
  · intro p t h
    exact toValidUTF8_rune p t h
  · intro b rest h
    exact toValidUTF8_no_rune b rest h

theorem save_load_roundtrip_witness :
    ((loadReportFromFile sampleTimeText
        (saveReportToFile emptyFiles manualReportFile fiveArticleReport).1
        manualReportFile : Option Report) = some fiveArticleReport ↔
      fiveArticleReport.Valid ∧ fiveArticleReport.Timestamp.offset % 60 = 0) ∧
    ((loadReportFromFile sampleTimeText
        (saveReportToFile emptyFiles manualReportFile editedReport).1
        manualReportFile : Option ManualReport) = some editedReport ↔
      editedReport.Valid ∧ editedReport.Timestamp.offset % 60 = 0) ∧
    toValidUTF8 ([0xC3, 0xA9] ++ lit "t") = [0xC3, 0xA9] ++ toValidUTF8 (lit "t") ∧
    toValidUTF8 (0xE9 :: lit "t") = [0xEF, 0xBF, 0xBD] ++ toValidUTF8 (lit "t") :=
  ⟨((save_load_roundtrip sampleTimeText emptyFiles manualReportFile).1 fiveArticleReport
      (by decide)).2,
   ((save_load_roundtrip sampleTimeText emptyFiles manualReportFile).2.1 editedReport
      (by decide)).2,
   (save_load_roundtrip sampleTimeText emptyFiles manualReportFile).2.2.2.2.2.2.1
      [0xC3, 0xA9] (lit "t") (by decide),
   (save_load_roundtrip sampleTimeText emptyFiles manualReportFile).2.2.2.2.2.2.2
      0xE9 (lit "t") (by
        intro p t hp h
        have hl := runeLen_of_rune p t hp
        rw [← h] at hl
        have hz : runeLen (0xE9 :: lit "t") = 0 := by decide
        have := (isRune_length p hp).1
        omega)⟩

/-- The two reports of the witness load as they were saved. -/
theorem save_load_examples :
    (loadReportFromFile sampleTimeText
        (saveReportToFile emptyFiles manualReportFile fiveArticleReport).1
        manualReportFile : Option Report) = some fiveArticleReport ∧
    (loadReportFromFile sampleTimeText
        (saveReportToFile emptyFiles manualReportFile editedReport).1
        manualReportFile : Option ManualReport) = some editedReport := by
  decide

/-- C3 as it is stated fails: a manual report whose second article has the
manual summary `caf\xe9` (the bytes a Latin-1 terminal sends) is saved without
error and loads as a different report, with `EF BF BD` in place of `E9`. -/
theorem save_load_latin1_differs :
    (saveReportToFile emptyFiles manualReportFile latin1Report).2 = true ∧
    (loadReportFromFile sampleTimeText
        (saveReportToFile emptyFiles manualReportFile latin1Report).1
        manualReportFile : Option ManualReport) ≠ some latin1Report ∧
    ((loadReportFromFile sampleTimeText
        (saveReportToFile emptyFiles manualReportFile latin1Report).1
        manualReportFile : Option ManualReport).map
      (fun r => r.Articles.map (fun a => a.ManualSummary)))
        = some [[], [0x63, 0x61, 0x66, 0xEF, 0xBF, 0xBD], [], [], []] := by
  decide

/-- The report of five articles stamped in a zone 30 seconds east of UTC is
saved without error and loads with the offset 0, half a minute later. -/
theorem save_load_odd_zone_differs :
    (saveReportToFile emptyFiles manualReportFile oddZoneReport).2 = true ∧
    (loadReportFromFile sampleTimeText
        (saveReportToFile emptyFiles manualReportFile oddZoneReport).1
        manualReportFile : Option Report) ≠ some oddZoneReport ∧
    ((loadReportFromFile sampleTimeText
        (saveReportToFile emptyFiles manualReportFile oddZoneReport).1
        manualReportFile : Option Report).map (fun r => r.Timestamp.instant))
        = some (oddZoneReport.Timestamp.instant + 30000000000) := by
  decide

/-! ## Claims on the overlay session and on the menu -/

theorem manualUpdateReport_lastReport (cfg : Config) (st : State) (edits : List EditInput)
    (st' : State) (outs : List Output)
    (h : manualUpdateReport cfg st edits = some (st', outs)) :
    st'.lastReport = st.lastReport := by
  unfold manualUpdateReport at h
  by_cases hz : st.lastReport.Timestamp.IsZero = true
  · rw [if_pos hz] at h
    simp only [Option.some.injEq, Prod.mk.injEq] at h
    rw [← h.1]
  · rw [if_neg hz] at h
    cases hl : editLoop cfg.atoi (beginOverlay st.lastReport) edits with
    | none => simp [hl] at h
    | some r =>
      simp only [hl, Option.some.injEq, Prod.mk.injEq] at h
      rw [← h.1]

/-- C6: the `ManualReport` built at the start of an overlay session from the
report `r` has the timestamp and the two source lists of `r` and as many
articles as `r`, the `i`-th being the `i`-th article of `r` with empty
`ManualSummary` and `ManualOpinion`; a session that is left at once saves
exactly this report; a session leaves `r` in the current-report slot, so the
overlay built by the next session is equal to the one built by this one. -/
theorem beginOverlay_spec (r : Report) :
    (beginOverlay r).Timestamp = r.Timestamp ∧
    (beginOverlay r).SuccessSources = r.SuccessSources ∧
    (beginOverlay r).FailSources = r.FailSources ∧
    (beginOverlay r).Articles.length = r.Articles.length ∧
    (∀ i : Nat, (beginOverlay r).Articles[i]? = (r.Articles[i]?).map (fun a =>
      ({ toArticle := a, ManualSummary := [], ManualOpinion := [] } : ManualArticle))) ∧
    (∀ a ∈ (beginOverlay r).Articles, a.ManualSummary = [] ∧ a.ManualOpinion = []) ∧
    (r.Timestamp.IsZero = false → ∀ (cfg : Config) (fs : FileSystem),
      manualUpdateReport cfg ⟨r, fs⟩ [⟨lit "0", [], []⟩] = some
        (⟨r, (saveReportToFile fs manualReportFile (beginOverlay r)).1⟩,
          [if (saveReportToFile fs manualReportFile (beginOverlay r)).2
            then Output.saved else Output.saveFailed])) ∧
    (∀ (cfg : Config) (fs : FileSystem) (edits : List EditInput) (st' : State)
      (outs : List Output), manualUpdateReport cfg ⟨r, fs⟩ edits = some (st', outs) →
      st'.lastReport = r ∧ beginOverlay st'.lastReport = beginOverlay r) := by
  rw [beginOverlay_eq]
  refine ⟨rfl, rfl, rfl, by simp, ?_, ?_, ?_, ?_⟩
  · intro i
    simp [List.getElem?_map]
  · intro a ha
    simp only [List.mem_map] at ha
    obtain ⟨b, _, rfl⟩ := ha
    exact ⟨rfl, rfl⟩
  · intro hts cfg fs
    have hz : ¬ (r.Timestamp.IsZero = true) := by simp [hts]
    simp only [manualUpdateReport, if_neg hz, editLoop, editStep, if_true, List.nil_append,
      beginOverlay_eq]
  · intro cfg fs edits st' outs h
    have hl := manualUpdateReport_lastReport cfg ⟨r, fs⟩ edits st' outs h
    simp only at hl
    rw [hl]
    exact ⟨rfl, beginOverlay_eq r⟩

theorem beginOverlay_spec_witness :
    manualUpdateReport sampleConfig ⟨fiveArticleReport, emptyFiles⟩ [⟨lit "0", [], []⟩] = some
      (⟨fiveArticleReport, (saveReportToFile emptyFiles manualReportFile
          (beginOverlay fiveArticleReport)).1⟩,
        [if (saveReportToFile emptyFiles manualReportFile
            (beginOverlay fiveArticleReport)).2 then Output.saved else Output.saveFailed]) ∧
    ∃ st' outs, manualUpdateReport sampleConfig ⟨fiveArticleReport, emptyFiles⟩
        (pass (lit "3")).edits = some (st', outs) ∧
      st'.lastReport = fiveArticleReport ∧
      beginOverlay st'.lastReport = beginOverlay fiveArticleReport :=
  ⟨(beginOverlay_spec fiveArticleReport).2.2.2.2.2.2.1 (by decide) sampleConfig emptyFiles,
   _, _, rfl,
   (beginOverlay_spec fiveArticleReport).2.2.2.2.2.2.2 sampleConfig emptyFiles
     (pass (lit "3")).edits _ _ rfl⟩

theorem mainStep_lastReport (cfg : Config) (st : State) (it : Iteration) (st' : State)
    (outs : List Output) (b : Bool) (hc : it.choiceStr ≠ lit "1")
    (h : mainStep cfg st it = some (st', outs, b)) : st'.lastReport = st.lastReport := by
  unfold mainStep at h
  rw [if_neg hc] at h
  split_ifs at h with h2 hz h3 h4 h0
  · simp only [Option.some.injEq, Prod.mk.injEq] at h
    rw [← h.1]
  · simp only [Option.some.injEq, Prod.mk.injEq] at h
    rw [← h.1]
  · cases hm : manualUpdateReport cfg st it.edits with
    | none => simp [hm] at h
    | some r =>
      simp only [hm, Option.map_some', Option.some.injEq, Prod.mk.injEq] at h
      rw [← h.1]
      exact manualUpdateReport_lastReport cfg st it.edits r.1 r.2 hm
  · cases hm : extractManualReport cfg st it.views with
    | none => simp [hm] at h
    | some r =>
      simp only [hm, Option.map_some', Option.some.injEq, Prod.mk.injEq] at h
      rw [← h.1]
  · simp only [Option.some.injEq, Prod.mk.injEq] at h
    rw [← h.1]
  · simp only [Option.some.injEq, Prod.mk.injEq] at h
    rw [← h.1]

theorem mainStep_before_crawl (cfg : Config) (st : State) (it : Iteration) (st' : State)
    (outs : List Output) (b : Bool) (hzero : st.lastReport.Timestamp.IsZero = true)
    (hc : it.choiceStr ≠ lit "1") (h : mainStep cfg st it = some (st', outs, b)) : st' = st := by
  unfold mainStep at h
  rw [if_neg hc] at h
  split_ifs at h with h2 h3 h4 h0
  · simp only [Option.some.injEq, Prod.mk.injEq] at h
    exact h.1.symm
  · simp only [manualUpdateReport, if_pos hzero, Option.map_some', Option.some.injEq,
      Prod.mk.injEq] at h
    exact h.1.symm
  · cases hm : extractManualReport cfg st it.views with
    | none => simp [hm] at h
    | some r =>
      simp only [hm, Option.map_some', Option.some.injEq, Prod.mk.injEq] at h
      exact h.1.symm
  · simp only [Option.some.injEq, Prod.mk.injEq] at h
    exact h.1.symm
  · simp only [Option.some.injEq, Prod.mk.injEq] at h
    exact h.1.symm

theorem mainStep_goes_on (cfg : Config) (st : State) (it : Iteration) (st' : State)
    (outs : List Output) (b : Bool) (h0 : it.choiceStr ≠ lit "0")
    (h : mainStep cfg st it = some (st', outs, b)) : b = true := by
  unfold mainStep at h
  split_ifs at h with h1 h2 hz h3 h4
  · cases hcr : crawlRSSFeeds cfg.rssSources it.order it.fetch it.since with
    | none => simp [hcr] at h
    | some out =>
      simp only [hcr, Option.some.injEq, Prod.mk.injEq] at h
      exact h.2.2.symm
  · simp only [Option.some.injEq, Prod.mk.injEq] at h
    exact h.2.2.symm
  · simp only [Option.some.injEq, Prod.mk.injEq] at h
    exact h.2.2.symm
  · cases hm : manualUpdateReport cfg st it.edits with
    | none => simp [hm] at h
    | some r =>
      simp only [hm, Option.map_some', Option.some.injEq, Prod.mk.injEq] at h
      exact h.2.2.symm
  · cases hm : extractManualReport cfg st it.views with
    | none => simp [hm] at h
    | some r =>
      simp only [hm, Option.map_some', Option.some.injEq, Prod.mk.injEq] at h
      exact h.2.2.symm
  · simp only [Option.some.injEq, Prod.mk.injEq] at h
    exact h.2.2.symm

theorem mainLoop_cons_step (cfg : Config) (st st1 : State) (it : Iteration)
    (rest : List Iteration) (o1 : List Output) (h : mainStep cfg st it = some (st1, o1, true)) :
    mainLoop cfg st (it :: rest)
      = (mainLoop cfg st1 rest).map (fun r => (r.1, o1 ++ r.2)) := by
  simp only [mainLoop, h]

theorem mainLoop_append (cfg : Config) (pre tail : List Iteration) (st : State)
    (h0 : ∀ x ∈ pre, x.choiceStr ≠ lit "0") :
    mainLoop cfg st (pre ++ tail) = (mainLoop cfg st pre).bind (fun r =>
      (mainLoop cfg r.1 tail).map (fun r2 => (r2.1, r.2 ++ r2.2))) := by
  induction pre generalizing st with
  | nil =>
    simp only [List.nil_append, mainLoop, Option.some_bind]
    cases mainLoop cfg st tail <;> simp
  | cons it rest ih =>
    cases hs : mainStep cfg st it with
    | none => simp [mainLoop, hs]
    | some r =>
      obtain ⟨st1, o1, b⟩ := r
      have hb : b = true :=
        mainStep_goes_on cfg st it st1 o1 b (h0 it (List.mem_cons_self _ _)) hs
      subst hb
      rw [List.cons_append, mainLoop_cons_step cfg st st1 it _ o1 hs,
        mainLoop_cons_step cfg st st1 it _ o1 hs,
        ih st1 (fun x hx => h0 x (List.mem_cons_of_mem _ hx))]
      cases mainLoop cfg st1 rest with
      | none => rfl
      | some r1 =>
        simp only [Option.some_bind, Option.map_some']
        cases mainLoop cfg r1.1 tail with
        | none => rfl
        | some r2 => simp [List.append_assoc]

theorem mainLoop_lastReport (cfg : Config) (its : List Iteration) (st st' : State)
    (outs : List Output) (hc : ∀ it ∈ its, it.choiceStr ≠ lit "1")
    (h : mainLoop cfg st its = some (st', outs)) : st'.lastReport = st.lastReport := by
  induction its generalizing st outs with
  | nil =>
    simp only [mainLoop, Option.some.injEq, Prod.mk.injEq] at h
    rw [← h.1]
  | cons it rest ih =>
    unfold mainLoop at h
    cases hs : mainStep cfg st it with
    | none => simp [hs] at h
    | some r =>
      obtain ⟨st1, outs1, b⟩ := r
      have hst : st1.lastReport = st.lastReport :=
        mainStep_lastReport cfg st it st1 outs1 b (hc it (List.mem_cons_self _ _)) hs
      cases b with
      | false =>
        simp only [hs, Option.some.injEq, Prod.mk.injEq] at h
        rw [← h.1, hst]
      | true =>
        simp only [hs] at h
        cases hl : mainLoop cfg st1 rest with
        | none => simp [hl] at h
        | some r2 =>
          obtain ⟨st2, outs2⟩ := r2
          simp only [hl, Option.map_some', Option.some.injEq, Prod.mk.injEq] at h
          rw [h.1] at hl
          rw [ih st1 outs2 (fun it hit => hc it (List.mem_cons_of_mem _ hit)) hl, hst]

theorem mainLoop_before_crawl (cfg : Config) (its : List Iteration) (st st' : State)
    (outs : List Output) (hz : st.lastReport.Timestamp.IsZero = true)
    (hc : ∀ it ∈ its, it.choiceStr ≠ lit "1") (h : mainLoop cfg st its = some (st', outs)) :
    st' = st := by
  induction its generalizing outs with
  | nil =>
    simp only [mainLoop, Option.some.injEq, Prod.mk.injEq] at h
    exact h.1.symm
  | cons it rest ih =>
    unfold mainLoop at h
    cases hs : mainStep cfg st it with
    | none => simp [hs] at h
    | some r =>
      obtain ⟨st1, outs1, b⟩ := r
      have hst : st1 = st :=
        mainStep_before_crawl cfg st it st1 outs1 b hz (hc it (List.mem_cons_self _ _)) hs
      subst hst
      cases b with
      | false =>
        simp only [hs, Option.some.injEq, Prod.mk.injEq] at h
        exact h.1.symm
      | true =>
        simp only [hs] at h
        cases hl : mainLoop cfg st1 rest with
        | none => simp [hl] at h
        | some r2 =>
          obtain ⟨st2, outs2⟩ := r2
          simp only [hl, Option.map_some', Option.some.injEq, Prod.mk.injEq] at h
          rw [h.1] at hl
          exact ih outs2 (fun it hit => hc it (List.mem_cons_of_mem _ hit)) hl

theorem mainStep_empty (cfg : Config) (st : State) (it : Iteration)
    (hzero : st.lastReport.Timestamp.IsZero = true)
    (hc : it.choiceStr = lit "2" ∨ it.choiceStr = lit "3") :
    mainStep cfg st it = some (st, [Output.noReportYet], true) := by
  rcases hc with hc | hc
  · simp +decide [mainStep, hc, hzero]
  · simp +decide [mainStep, hc, manualUpdateReport, hzero]

theorem mainStep_show (cfg : Config) (st : State) (it : Iteration)
    (hz : st.lastReport.Timestamp.IsZero = false) (hc : it.choiceStr = lit "2") :
    mainStep cfg st it = some (st, [Output.results st.lastReport], true) := by
  simp +decide [mainStep, hc, hz]

theorem mainStep_manual (cfg : Config) (st : State) (it : Iteration) (m : ManualReport)
    (outs : List Output) (hz : st.lastReport.Timestamp.IsZero = false)
    (hc : it.choiceStr = lit "3")
    (hl : editLoop cfg.atoi (beginOverlay st.lastReport) it.edits = some (m, outs)) :
    mainStep cfg st it = some
      (⟨st.lastReport, (saveReportToFile st.fs manualReportFile m).1⟩,
        outs ++ [if (saveReportToFile st.fs manualReportFile m).2
          then Output.saved else Output.saveFailed],
        true) := by
  simp +decide [mainStep, hc, manualUpdateReport, hz, hl]

theorem mainStep_manual_waiting (cfg : Config) (st : State) (it : Iteration)
    (hz : st.lastReport.Timestamp.IsZero = false) (hc : it.choiceStr = lit "3")
    (hl : editLoop cfg.atoi (beginOverlay st.lastReport) it.edits = none) :
    mainStep cfg st it = none := by
  simp +decide [mainStep, hc, manualUpdateReport, hz, hl]

theorem mainStep_crawl (cfg : Config) (st : State) (it : Iteration)
    (hc : it.choiceStr = lit "1") :
    ∃ out, crawlRSSFeeds cfg.rssSources it.order it.fetch it.since = some out ∧
      mainStep cfg st it = some
        (⟨⟨it.now, out.successSources, out.failSources, out.articles⟩, st.fs⟩,
          [Output.crawlStarted] ++ out.progress.map Output.progress
            ++ [Output.results ⟨it.now, out.successSources, out.failSources, out.articles⟩],
          true) := by
  refine ⟨_, crawlRSSFeeds_eq cfg.rssSources it.order it.fetch it.since, ?_⟩
  simp only [mainStep, if_pos hc, crawlRSSFeeds_eq]

/-- C9: for every sequence of menu commands.  While no crawl has completed the
current-report slot holds the zero report, and a choice `2` or `3` issued
then, after any commands other than `1` and `0`, reports the empty state and
nothing else and leaves the whole state (slot and files) as it is: the run
goes on from the state at start-up.  Choice `1` always completes and puts the
report of this crawl, stamped with the clock reading, in the slot, whatever
was there; every other choice leaves the slot as it is.  After a crawl whose
report has a timestamp other than the zero time (the clock never reads year
1) and any commands other than `1` and `0`, choice `2` renders the report of
that crawl and choice `3` builds the overlay from it, runs the edit loop and
saves.  The run over a sequence of commands is the run over its first part
followed, from the state then reached, by the run over the rest. -/
theorem menu_empty_state (cfg : Config) :
    (∀ (st : State) (it : Iteration), st.lastReport.Timestamp.IsZero = true →
      it.choiceStr = lit "2" ∨ it.choiceStr = lit "3" →
      mainStep cfg st it = some (st, [Output.noReportYet], true)) ∧
    (∀ (fs : FileSystem) (its : List Iteration) (st' : State) (outs : List Output),
      (∀ it ∈ its, it.choiceStr ≠ lit "1") →
      mainLoop cfg (State.initial fs) its = some (st', outs) →
      st' = State.initial fs ∧ st'.lastReport = Report.zero ∧
        st'.lastReport.Timestamp.IsZero = true) ∧
    (∀ (st : State) (it : Iteration), it.choiceStr = lit "1" →
      ∃ out, crawlRSSFeeds cfg.rssSources it.order it.fetch it.since = some out ∧
        mainStep cfg st it = some
          (⟨⟨it.now, out.successSources, out.failSources, out.articles⟩, st.fs⟩,
            [Output.crawlStarted] ++ out.progress.map Output.progress
              ++ [Output.results ⟨it.now, out.successSources, out.failSources, out.articles⟩],
            true)) ∧
    (∀ (st : State) (it : Iteration), st.lastReport.Timestamp.IsZero = false →
      it.choiceStr = lit "2" →
      mainStep cfg st it = some (st, [Output.results st.lastReport], true)) ∧
    (∀ (st : State) (it : Iteration) (m : ManualReport) (outs : List Output),
      st.lastReport.Timestamp.IsZero = false → it.choiceStr = lit "3" →
      editLoop cfg.atoi (beginOverlay st.lastReport) it.edits = some (m, outs) →
      mainStep cfg st it = some
        (⟨st.lastReport, (saveReportToFile st.fs manualReportFile m).1⟩,
          outs ++ [if (saveReportToFile st.fs manualReportFile m).2
            then Output.saved else Output.saveFailed],
          true)) ∧
    (∀ (st : State) (it : Iteration) (st' : State) (outs : List Output) (b : Bool),
      it.choiceStr ≠ lit "1" → mainStep cfg st it = some (st', outs, b) →
      st'.lastReport = st.lastReport) ∧
    (∀ (st : State) (pre tail : List Iteration), (∀ x ∈ pre, x.choiceStr ≠ lit "0") →
      mainLoop cfg st (pre ++ tail) = (mainLoop cfg st pre).bind (fun r =>
        (mainLoop cfg r.1 tail).map (fun r2 => (r2.1, r.2 ++ r2.2)))) ∧
    (∀ (fs : FileSystem) (pre : List Iteration) (it : Iteration) (rest : List Iteration),
      (∀ x ∈ pre, x.choiceStr ≠ lit "1" ∧ x.choiceStr ≠ lit "0") →
      it.choiceStr = lit "2" ∨ it.choiceStr = lit "3" →
      mainLoop cfg (State.initial fs) (pre ++ it :: rest)
        = (mainLoop cfg (State.initial fs) pre).bind (fun r =>
            (mainLoop cfg (State.initial fs) rest).map
              (fun r2 => (r2.1, r.2 ++ [Output.noReportYet] ++ r2.2)))) ∧
    (∀ (st : State) (it : Iteration) (rest : List Iteration), it.choiceStr = lit "1" →
      ∃ out, crawlRSSFeeds cfg.rssSources it.order it.fetch it.since = some out ∧
        mainLoop cfg st (it :: rest)
          = (mainLoop cfg
              ⟨⟨it.now, out.successSources, out.failSources, out.articles⟩, st.fs⟩ rest).map
              (fun r => (r.1, [Output.crawlStarted] ++ out.progress.map Output.progress
                ++ [Output.results
                    ⟨it.now, out.successSources, out.failSources, out.articles⟩] ++ r.2))) ∧
    (∀ (report : Report) (fs : FileSystem) (mid : List Iteration) (it : Iteration)
      (rest : List Iteration), report.Timestamp.IsZero = false →
      (∀ x ∈ mid, x.choiceStr ≠ lit "1" ∧ x.choiceStr ≠ lit "0") →
      it.choiceStr = lit "2" →
      mainLoop cfg ⟨report, fs⟩ (mid ++ it :: rest)
        = (mainLoop cfg ⟨report, fs⟩ mid).bind (fun r =>
            (mainLoop cfg ⟨report, r.1.fs⟩ rest).map
              (fun r2 => (r2.1, r.2 ++ [Output.results report] ++ r2.2)))) ∧
    (∀ (report : Report) (fs : FileSystem) (mid : List Iteration) (it : Iteration)
      (rest : List Iteration), report.Timestamp.IsZero = false →
      (∀ x ∈ mid, x.choiceStr ≠ lit "1" ∧ x.choiceStr ≠ lit "0") →
      it.choiceStr = lit "3" →
      mainLoop cfg ⟨report, fs⟩ (mid ++ it :: rest)
        = (mainLoop cfg ⟨report, fs⟩ mid).bind (fun r =>
            (editLoop cfg.atoi (beginOverlay report) it.edits).bind (fun e =>
              (mainLoop cfg ⟨report, (saveReportToFile r.1.fs manualReportFile e.1).1⟩ rest).map
                (fun r2 => (r2.1, r.2 ++ (e.2 ++
                  [if (saveReportToFile r.1.fs manualReportFile e.1).2
                    then Output.saved else Output.saveFailed]) ++ r2.2))))) ∧
    (∀ (st : State) (it : Iteration) (mid : List Iteration) (st' : State)
      (outs : List Output), it.choiceStr = lit "1" →
      (∀ x ∈ mid, x.choiceStr ≠ lit "1") →
      mainLoop cfg st (it :: mid) = some (st', outs) →
      ∃ out, crawlRSSFeeds cfg.rssSources it.order it.fetch it.since = some out ∧
        st'.lastReport = ⟨it.now, out.successSources, out.failSources, out.articles⟩) := by
  refine ⟨?_, ?_, ?_, ?_, ?_, ?_, ?_, ?_, ?_, ?_, ?_, ?_⟩
  · intro st it hz hc
    exact mainStep_empty cfg st it hz hc
  · intro fs its st' outs hc h
    have hst : st' = State.initial fs :=
      mainLoop_before_crawl cfg its (State.initial fs) st' outs rfl hc h
    subst hst
    exact ⟨rfl, rfl, rfl⟩
  · intro st it hc
    exact mainStep_crawl cfg st it hc
  · intro st it hz hc
    exact mainStep_show cfg st it hz hc
  · intro st it m outs hz hc hl
    exact mainStep_manual cfg st it m outs hz hc hl
  · intro st it st' outs b hc h
    exact mainStep_lastReport cfg st it st' outs b hc h
  · intro st pre tail h0
    exact mainLoop_append cfg pre tail st h0
  · intro fs pre it rest hpre hc
    rw [mainLoop_append cfg pre (it :: rest) _ (fun x hx => (hpre x hx).2)]
    cases hm : mainLoop cfg (State.initial fs) pre with
    | none => rfl
    | some r =>
      obtain ⟨st1, o1⟩ := r
      have hst : st1 = State.initial fs :=
        mainLoop_before_crawl cfg pre _ st1 o1 rfl (fun x hx => (hpre x hx).1) hm
      subst hst
      simp only [Option.some_bind]
      rw [mainLoop_cons_step cfg _ _ it rest _ (mainStep_empty cfg (State.initial fs) it rfl hc)]
      cases mainLoop cfg (State.initial fs) rest <;> simp [List.append_assoc]
  · intro st it rest hc
    obtain ⟨out, hout, hstep⟩ := mainStep_crawl cfg st it hc
    refine ⟨out, hout, ?_⟩
    rw [mainLoop_cons_step cfg st _ it rest _ hstep]
  · intro report fs mid it rest hz hmid hc
    rw [mainLoop_append cfg mid (it :: rest) _ (fun x hx => (hmid x hx).2)]
    cases hm : mainLoop cfg ⟨report, fs⟩ mid with
    | none => rfl
    | some r =>
      obtain ⟨st1, o1⟩ := r
      have hl : st1.lastReport = report :=
        mainLoop_lastReport cfg mid _ st1 o1 (fun x hx => (hmid x hx).1) hm
      obtain ⟨r1, fs1⟩ := st1
      simp only at hl
      subst hl
      simp only [Option.some_bind]
      rw [mainLoop_cons_step cfg _ _ it rest _ (mainStep_show cfg _ it hz hc)]
      cases mainLoop cfg ⟨r1, fs1⟩ rest <;> simp [List.append_assoc]
  · intro report fs mid it rest hz hmid hc
    rw [mainLoop_append cfg mid (it :: rest) _ (fun x hx => (hmid x hx).2)]
    cases hm : mainLoop cfg ⟨report, fs⟩ mid with
    | none => rfl
    | some r =>
      obtain ⟨st1, o1⟩ := r
      have hl : st1.lastReport = report :=
        mainLoop_lastReport cfg mid _ st1 o1 (fun x hx => (hmid x hx).1) hm
      obtain ⟨r1, fs1⟩ := st1
      simp only at hl
      subst hl
      simp only [Option.some_bind]
      cases he : editLoop cfg.atoi (beginOverlay r1) it.edits with
      | none =>
        simp only [Option.none_bind, Option.map_eq_none']
        simp only [mainLoop, mainStep_manual_waiting cfg ⟨r1, fs1⟩ it hz hc he]
      | some e =>
        obtain ⟨m, eo⟩ := e
        simp only [Option.some_bind]
        rw [mainLoop_cons_step cfg _ _ it rest _
          (mainStep_manual cfg ⟨r1, fs1⟩ it m eo hz hc he)]
        cases mainLoop cfg ⟨r1, (saveReportToFile fs1 manualReportFile m).1⟩ rest <;>
          simp [List.append_assoc]
  · intro st it mid st' outs hc hmid h
    obtain ⟨out, hout, hstep⟩ := mainStep_crawl cfg st it hc
    refine ⟨out, hout, ?_⟩
    rw [mainLoop_cons_step cfg st _ it mid _ hstep] at h
    cases hm : mainLoop cfg
        ⟨⟨it.now, out.successSources, out.failSources, out.articles⟩, st.fs⟩ mid with
    | none => simp [hm] at h
    | some r =>
      simp only [hm, Option.map_some', Option.some.injEq, Prod.mk.injEq] at h
      rw [← h.1]
      exact mainLoop_lastReport cfg mid _ r.1 r.2 hmid hm

theorem menu_empty_state_witness :
    mainStep sampleConfig (State.initial emptyFiles) (pass (lit "2"))
      = some (State.initial emptyFiles, [Output.noReportYet], true) ∧
    mainStep sampleConfig (State.initial emptyFiles) (pass (lit "3"))
      = some (State.initial emptyFiles, [Output.noReportYet], true) ∧
    (∃ st' outs,
      mainLoop sampleConfig (State.initial emptyFiles)
        [pass (lit "2"), pass (lit "3"), pass (lit "4"), pass (lit "9"), pass (lit "0")]
          = some (st', outs) ∧
      st' = State.initial emptyFiles ∧ st'.lastReport = Report.zero ∧
        st'.lastReport.Timestamp.IsZero = true) ∧
    mainStep sampleConfig fiveArticleState (pass (lit "2"))
      = some (fiveArticleState, [Output.results fiveArticleState.lastReport], true) ∧
    mainStep sampleConfig fiveArticleState (pass (lit "3")) = some
      (⟨fiveArticleState.lastReport,
          (saveReportToFile fiveArticleState.fs manualReportFile editedReport).1⟩,
        [Output.updated 2] ++
          [if (saveReportToFile fiveArticleState.fs manualReportFile editedReport).2
            then Output.saved else Output.saveFailed],
        true) ∧
    (∃ st' outs b, mainStep sampleConfig fiveArticleState (pass (lit "4"))
        = some (st', outs, b) ∧ st'.lastReport = fiveArticleState.lastReport) ∧
    (∃ out, crawlRSSFeeds sampleConfig.rssSources (pass (lit "1")).order (pass (lit "1")).fetch
        (pass (lit "1")).since = some out ∧
      mainStep sampleConfig (State.initial emptyFiles) (pass (lit "1")) = some
        (⟨⟨(pass (lit "1")).now, out.successSources, out.failSources, out.articles⟩,
            (State.initial emptyFiles).fs⟩,
          [Output.crawlStarted] ++ out.progress.map Output.progress
            ++ [Output.results
                ⟨(pass (lit "1")).now, out.successSources, out.failSources, out.articles⟩],
          true)) ∧
    mainLoop sampleConfig (State.initial emptyFiles) ([pass (lit "4"), pass (lit "9")] ++
        pass (lit "3") :: [pass (lit "0")])
      = (mainLoop sampleConfig (State.initial emptyFiles)
          [pass (lit "4"), pass (lit "9")]).bind (fun r =>
            (mainLoop sampleConfig (State.initial emptyFiles) [pass (lit "0")]).map
              (fun r2 => (r2.1, r.2 ++ [Output.noReportYet] ++ r2.2))) ∧
    mainLoop sampleConfig ⟨fiveArticleReport, emptyFiles⟩ ([pass (lit "3"), pass (lit "4")] ++
        pass (lit "2") :: [pass (lit "0")])
      = (mainLoop sampleConfig ⟨fiveArticleReport, emptyFiles⟩
          [pass (lit "3"), pass (lit "4")]).bind (fun r =>
            (mainLoop sampleConfig ⟨fiveArticleReport, r.1.fs⟩ [pass (lit "0")]).map
              (fun r2 => (r2.1, r.2 ++ [Output.results fiveArticleReport] ++ r2.2))) ∧
    mainLoop sampleConfig ⟨fiveArticleReport, emptyFiles⟩ ([pass (lit "2")] ++
        pass (lit "3") :: [pass (lit "0")])
      = (mainLoop sampleConfig ⟨fiveArticleReport, emptyFiles⟩ [pass (lit "2")]).bind (fun r =>
          (editLoop sampleConfig.atoi (beginOverlay fiveArticleReport)
              (pass (lit "3")).edits).bind (fun e =>
            (mainLoop sampleConfig
                ⟨fiveArticleReport, (saveReportToFile r.1.fs manualReportFile e.1).1⟩
                [pass (lit "0")]).map
              (fun r2 => (r2.1, r.2 ++ (e.2 ++
                [if (saveReportToFile r.1.fs manualReportFile e.1).2
                  then Output.saved else Output.saveFailed]) ++ r2.2)))) ∧
    (∃ st' outs out,
      mainLoop sampleConfig (State.initial emptyFiles)
        (pass (lit "1") :: [pass (lit "3"), pass (lit "0")]) = some (st', outs) ∧
      crawlRSSFeeds sampleConfig.rssSources (pass (lit "1")).order (pass (lit "1")).fetch
        (pass (lit "1")).since = some out ∧
      st'.lastReport
        = ⟨(pass (lit "1")).now, out.successSources, out.failSources, out.articles⟩) :=
  ⟨(menu_empty_state sampleConfig).1 (State.initial emptyFiles) (pass (lit "2")) rfl
      (Or.inl rfl),
   (menu_empty_state sampleConfig).1 (State.initial emptyFiles) (pass (lit "3")) rfl
      (Or.inr rfl),
   ⟨_, _, rfl, (menu_empty_state sampleConfig).2.1 emptyFiles
      [pass (lit "2"), pass (lit "3"), pass (lit "4"), pass (lit "9"), pass (lit "0")] _ _
      (by decide) rfl⟩,
   (menu_empty_state sampleConfig).2.2.2.1 fiveArticleState (pass (lit "2")) (by decide) rfl,
   (menu_empty_state sampleConfig).2.2.2.2.1 fiveArticleState (pass (lit "3")) editedReport
      [Output.updated 2] (by decide) rfl (by decide),
   ⟨_, _, _, rfl, (menu_empty_state sampleConfig).2.2.2.2.2.1 fiveArticleState
      (pass (lit "4")) _ _ _ (by decide) rfl⟩,
   (menu_empty_state sampleConfig).2.2.1 (State.initial emptyFiles) (pass (lit "1")) rfl,
   (menu_empty_state sampleConfig).2.2.2.2.2.2.2.1 emptyFiles [pass (lit "4"), pass (lit "9")]
      (pass (lit "3")) [pass (lit "0")] (by decide) (Or.inr rfl),
   (menu_empty_state sampleConfig).2.2.2.2.2.2.2.2.2.1 fiveArticleReport emptyFiles
      [pass (lit "3"), pass (lit "4")] (pass (lit "2")) [pass (lit "0")] (by decide)
      (by decide) rfl,
   (menu_empty_state sampleConfig).2.2.2.2.2.2.2.2.2.2.1 fiveArticleReport emptyFiles
      [pass (lit "2")] (pass (lit "3")) [pass (lit "0")] (by decide) (by decide) rfl,
   (by
     obtain ⟨out, hout, hrep⟩ := (menu_empty_state sampleConfig).2.2.2.2.2.2.2.2.2.2.2
       (State.initial emptyFiles) (pass (lit "1")) [pass (lit "3"), pass (lit "0")] _ _ rfl
       (by decide) rfl
     exact ⟨_, _, out, rfl, hout, hrep⟩)⟩

/-- A run of the menu: show and overlay before any crawl, a crawl of the three
sources, then show, an overlay session that sets the manual summary of the
second article, the saved overlay viewed, and exit. -/
theorem menu_scenario :
    (mainLoop sampleConfig (State.initial emptyFiles)
        [pass (lit "2"), pass (lit "3"), pass (lit "1"), pass (lit "2"), pass (lit "3"),
          pass (lit "4"), pass (lit "0")]).map (fun r => (r.1.lastReport, r.2))
      = some (threeSourcesReport,
          [Output.noReportYet, Output.noReportYet, Output.crawlStarted,
            Output.progress ⟨1, 3, 2000000000⟩, Output.progress ⟨2, 3, 1000000000⟩,
            Output.progress ⟨3, 3, 0⟩, Output.results threeSourcesReport,
            Output.results threeSourcesReport, Output.updated 2, Output.saved,
            Output.detail (renderDetail noColors
              { toArticle := mkArticle (lit "A") itemWithoutDescription,
                ManualSummary := lit "x", ManualOpinion := lit "" }),
            Output.goodbye]) := by
  decide

end Tinmoi
